import Mathlib

/-!
Mail-dispatcher: routing engine and delivery transport.

A shallow embedding of the dispatch pipeline of `mail-dispatcher`
(`internal/services/mail_routing_service.go`, `internal/mail/client.go`)
together with theorems about subject parsing, outcome classification,
the delivery fallback chain and the derivation of the submission endpoint.

Go strings are modelled as lists of Unicode code points (`Str`); the
`error` interface is modelled by the error text, `none` standing for `nil`.
-/

namespace MailDispatcher

/-- Go `string`, as the sequence of its code points. -/
abbrev Str := List Char

/-- Go `error`: `none` is `nil`, `some t` an error whose `Error()` text is `t`. -/
abbrev GoError := Option Str

/-! ## The `strings` helpers used by the program -/

/-- Go `unicode.IsSpace`: the code points with the Unicode White_Space property. -/
def isSpace (c : Char) : Bool :=
  let n := c.toNat
  n == 0x09 || n == 0x0A || n == 0x0B || n == 0x0C || n == 0x0D || n == 0x20 ||
  n == 0x85 || n == 0xA0 || n == 0x1680 || (0x2000 ≤ n && n ≤ 0x200A) ||
  n == 0x2028 || n == 0x2029 || n == 0x202F || n == 0x205F || n == 0x3000

/-- Go `strings.TrimSpace`: drop leading and trailing white space. -/
def TrimSpace (s : Str) : Str :=
  ((s.dropWhile isSpace).reverse.dropWhile isSpace).reverse

/-- Go `strings.Cut` for a separator: the text before and after the first
occurrence of `sep` in `s`, or `none` when `sep` does not occur. -/
def Cut (sep : Str) : Str → Option (Str × Str)
  | [] => if sep.isPrefixOf [] then some ([], []) else none
  | c :: cs =>
    if sep.isPrefixOf (c :: cs) then some ([], (c :: cs).drop sep.length)
    else match Cut sep cs with
      | some (a, b) => some (c :: a, b)
      | none => none

/-- Go `strings.Contains`. -/
def Contains (s substr : Str) : Bool := (Cut substr s).isSome

/-- Go `strings.SplitN(s, sep, n)` for a non-empty separator and `n ≥ 0`:
at most `n` pieces, the last one holding the unsplit remainder. -/
def SplitN (s sep : Str) : Nat → List Str
  | 0 => []
  | 1 => [s]
  | n + 2 =>
    match Cut sep s with
    | none => [s]
    | some (a, b) => a :: SplitN b sep (n + 1)

/-- Go `strings.Split(s, sep)` for a non-empty separator: `SplitN` with the
piece count unbounded (Go caps it at `len(s) + 1`). -/
def Split (s sep : Str) : List Str := SplitN s sep (s.length + 1)

/-- Go `strings.Replace(s, old, new, 1)`: replace the first occurrence. -/
def ReplaceFirst (s old new : Str) : Str :=
  match Cut old s with
  | none => s
  | some (a, b) => a ++ new ++ b

/-! ## Subject parsing (`MailRoutingService.parseSubject`) -/

/-- The literal separator of the subject convention. -/
def subjectSep : Str := " - ".toList

/-- Error text of `parseSubject` when the split does not give two parts. -/
def errSubjectFormat : Str := "邮件主题格式不正确，应为 '关键字 - 转发对象名称'".toList

/-- Error text of `parseSubject` when a trimmed part is empty. -/
def errSubjectEmpty : Str := "关键字或转发对象名称为空".toList

/-- Function `MailRoutingService.parseSubject`: returns `(keyword, targetName, err)`. -/
def parseSubject (subject : Str) : Str × Str × GoError :=
  let parts := SplitN subject subjectSep 2
  if parts.length ≠ 2 then
    ([], [], some errSubjectFormat)
  else
    let keyword := TrimSpace (parts.getD 0 [])
    let targetName := TrimSpace (parts.getD 1 [])
    if keyword = [] ∨ targetName = [] then
      ([], [], some errSubjectEmpty)
    else
      (keyword, targetName, none)

/-- The pair `(a, b)` splits `s` at the first occurrence of `sep`. -/
def FirstSplit (sep s a b : Str) : Prop :=
  s = a ++ sep ++ b ∧ ∀ a2 b2 : Str, s = a2 ++ sep ++ b2 → a.length ≤ a2.length

/-! ## Data model (`internal/models/models.go`, `internal/mail/config.go`) -/

/-- Go `[]byte`. -/
abbrev Bytes := List UInt8

/-- Type `models.Email`: the normalized message. `ReceivedAt` is a clock reading. -/
structure Email where
  MessageID : Str
  Subject : Str
  From : Str
  To : Str
  Body : Str
  RawData : Bytes
  ReceivedAt : Nat
deriving DecidableEq

/-- Type `models.ForwardTarget` (the store-managed timestamps are left out;
`DeletedAt` is the soft-delete mark that every query filters on). -/
structure ForwardTarget where
  ID : Nat
  Name : Str
  Email : Str
  Description : Str
  DeletedAt : Option Nat
deriving DecidableEq

/-- Type `models.MailLog`: the outcome record, with the fields the routing engine
writes (the primary key and the timestamps are filled in by the store). -/
structure MailLog where
  AccountID : Nat
  MessageID : Str
  Subject : Str
  From : Str
  To : Str
  ReceivedAt : Nat
  ForwardTo : Str
  Status : Str
  Error : Str
  ForwardedAt : Option Nat
deriving DecidableEq

/-- Type `mail.Config`: the per-account client configuration. -/
structure Config where
  AccountID : Nat
  Provider : Str
  Address : Str
  Username : Str
  Password : Str
  Server : Str
  Settings : Str
  LastUID : Nat
deriving DecidableEq

/-! ## The store and the collaborators of the routing engine -/

/-- The tables `ProcessEmail` reads and writes, rows in primary-key order. -/
structure Store where
  logs : List MailLog
  targets : List ForwardTarget
deriving DecidableEq

/-- What the collaborators answer during one call of `ProcessEmail`:
a store failure injected into each of the three store operations (if any),
the result of `SenderService.SendEmail`, and the clock. -/
structure Env where
  findLogErr : GoError
  findTargetErr : GoError
  createErr : GoError
  sendEmail : Email → Str → Nat → GoError
  now : Nat

/-- The effects of `ProcessEmail`, in program order. -/
inductive Event where
  | findLog (messageID : Str) (accountID : Nat)
  | findTarget (name : Str)
  | sendEmail (email : Email) (toEmail : Str) (accountID : Nat)
  | createLog (log : MailLog)
deriving DecidableEq

/-- Final store, effects and returned error of one routing-engine call. -/
structure Result where
  store : Store
  events : List Event
  err : GoError

/-- Text of gorm's `ErrRecordNotFound`. -/
def errRecordNotFound : Str := "record not found".toList

/-- The query `db.Where("message_id = ? AND account_id = ?", ...).First(&existingLog)`;
SQL equality is taken to be equality of the values. -/
def firstLog (env : Env) (st : Store) (messageID : Str) (accountID : Nat) : Except Str MailLog :=
  match env.findLogErr with
  | some e => .error e
  | none =>
    match st.logs.find? (fun l => decide (l.MessageID = messageID ∧ l.AccountID = accountID)) with
    | some l => .ok l
    | none => .error errRecordNotFound

/-- The query `db.Where("name = ?", targetName).First(&target)`; SQL equality
is taken to be equality of the values, and rows that are soft-deleted are not
returned. -/
def firstTarget (env : Env) (st : Store) (name : Str) : Except Str ForwardTarget :=
  match env.findTargetErr with
  | some e => .error e
  | none =>
    match st.targets.find? (fun t => decide (t.Name = name ∧ t.DeletedAt = none)) with
    | some t => .ok t
    | none => .error errRecordNotFound

/-- The insert `db.Create(&log).Error`. -/
def createLog (env : Env) (st : Store) (l : MailLog) : Result :=
  match env.createErr with
  | some e => ⟨st, [Event.createLog l], some e⟩
  | none => ⟨{ st with logs := st.logs ++ [l] }, [Event.createLog l], none⟩

/-- The record `logSuccessfulEmail` builds (`now` is `time.Now()`). -/
def forwardedLog (now : Nat) (email : Email) (accountID : Nat) (forwardTo : Str) : MailLog :=
  { AccountID := accountID
    MessageID := email.MessageID
    Subject := email.Subject
    From := email.From
    To := email.To
    ReceivedAt := email.ReceivedAt
    ForwardTo := forwardTo
    Status := "forwarded".toList
    Error := []
    ForwardedAt := some now }

/-- Function `MailRoutingService.logSuccessfulEmail`. -/
def logSuccessfulEmail (env : Env) (st : Store) (email : Email) (accountID : Nat)
    (forwardTo : Str) : Result :=
  let now := env.now
  createLog env st (forwardedLog now email accountID forwardTo)

/-- The record `logFailedEmail` builds. -/
def failedLog (email : Email) (accountID : Nat) (errorMsg : Str) : MailLog :=
  { AccountID := accountID
    MessageID := email.MessageID
    Subject := email.Subject
    From := email.From
    To := email.To
    ReceivedAt := email.ReceivedAt
    ForwardTo := []
    Status := "failed".toList
    Error := errorMsg
    ForwardedAt := none }

/-- Function `MailRoutingService.logFailedEmail`. -/
def logFailedEmail (env : Env) (st : Store) (email : Email) (accountID : Nat)
    (errorMsg : Str) : Result :=
  createLog env st (failedLog email accountID errorMsg)

/-- Run `r` after the effects `pre` have happened. -/
def Result.after (pre : List Event) (r : Result) : Result :=
  { r with events := pre ++ r.events }

/-- Marker that starts the error detail of a subject parse failure. -/
def msgParseFailed : Str := "解析主题失败: ".toList

/-- Marker that starts the error detail of a missing target. -/
def msgTargetNotFound : Str := "未找到匹配的转发目标: ".toList

/-- Marker that starts the error detail of a failed delivery. -/
def msgForwardFailed : Str := "转发失败: ".toList

/-- Function `MailRoutingService.ProcessEmail` (the `log.Printf` lines are left out). -/
def ProcessEmail (env : Env) (st : Store) (email : Email) (accountID : Nat) : Result :=
  match firstLog env st email.MessageID accountID with
  | .ok _ => ⟨st, [Event.findLog email.MessageID accountID], none⟩
  | .error _ =>
    match parseSubject email.Subject with
    | (_, _, some err) =>
      (logFailedEmail env st email accountID (msgParseFailed ++ err)).after
        [Event.findLog email.MessageID accountID]
    | (_, targetName, none) =>
      match firstTarget env st targetName with
      | .error _ =>
        (logFailedEmail env st email accountID (msgTargetNotFound ++ targetName)).after
          [Event.findLog email.MessageID accountID, Event.findTarget targetName]
      | .ok target =>
        match env.sendEmail email target.Email accountID with
        | some err =>
          (logFailedEmail env st email accountID (msgForwardFailed ++ err)).after
            [Event.findLog email.MessageID accountID, Event.findTarget targetName,
             Event.sendEmail email target.Email accountID]
        | none =>
          (logSuccessfulEmail env st email accountID target.Email).after
            [Event.findLog email.MessageID accountID, Event.findTarget targetName,
             Event.sendEmail email target.Email accountID]

/-- The outcomes the Audit Log holds for the pair `(accountID, messageID)`. -/
def outcomesFor (st : Store) (accountID : Nat) (messageID : Str) : List MailLog :=
  st.logs.filter (fun l => decide (l.MessageID = messageID ∧ l.AccountID = accountID))

/-- The records handed to `db.Create` among the effects. -/
def appended : List Event → List MailLog
  | [] => []
  | Event.createLog l :: es => l :: appended es
  | _ :: es => appended es

/-- The delivery calls `(destination, accountID)` among the effects. -/
def deliveries : List Event → List (Email × Str × Nat)
  | [] => []
  | Event.sendEmail e t a :: es => (e, t, a) :: deliveries es
  | _ :: es => deliveries es

/-- The target names looked up among the effects. -/
def targetLookups : List Event → List Str
  | [] => []
  | Event.findTarget n :: es => n :: targetLookups es
  | _ :: es => targetLookups es

/-! ## Delivery (`MailClient.sendMailWithFallback`, `getSMTPServer`, `getSMTPPort`) -/

/-- The three ways of submitting a message. -/
inductive Method where
  | STARTTLS
  | SSL
  | Plain
deriving DecidableEq

/-- One call of an attempt function, with its arguments. -/
structure Attempt where
  method : Method
  smtpServer : Str
  port : Str
  toEmail : Str
  body : Bytes
deriving DecidableEq

/-- The results of the three attempt functions `sendMailWithSTARTTLS`,
`sendMailWithSSL` and `sendMailPlain`, which talk to the network. -/
structure Smtp where
  sendMailWithSTARTTLS : Str → Str → Str → Bytes → GoError
  sendMailWithSSL : Str → Str → Str → Bytes → GoError
  sendMailPlain : Str → Str → Str → Bytes → GoError

/-- Error text of `sendMailWithFallback` when every method failed. -/
def errAllFailed : Str := "所有发送方式都失败".toList

/-- Function `MailClient.sendMailWithFallback`: the attempts made, in order, and the
returned error. -/
def sendMailWithFallback (net : Smtp) (smtpServer smtpPort toEmail : Str) (body : Bytes) :
    List Attempt × GoError :=
  let first : List Attempt × Bool :=
    if smtpPort = "587".toList then
      match net.sendMailWithSTARTTLS smtpServer smtpPort toEmail body with
      | none => ([⟨Method.STARTTLS, smtpServer, smtpPort, toEmail, body⟩], true)
      | some _ => ([⟨Method.STARTTLS, smtpServer, smtpPort, toEmail, body⟩], false)
    else ([], false)
  if first.2 then (first.1, none)
  else
    match net.sendMailWithSSL smtpServer "465".toList toEmail body with
    | none => (first.1 ++ [⟨Method.SSL, smtpServer, "465".toList, toEmail, body⟩], none)
    | some _ =>
      match net.sendMailPlain smtpServer "25".toList toEmail body with
      | none =>
        (first.1 ++ [⟨Method.SSL, smtpServer, "465".toList, toEmail, body⟩,
          ⟨Method.Plain, smtpServer, "25".toList, toEmail, body⟩], none)
      | some _ =>
        (first.1 ++ [⟨Method.SSL, smtpServer, "465".toList, toEmail, body⟩,
          ⟨Method.Plain, smtpServer, "25".toList, toEmail, body⟩], some errAllFailed)

/-- The result of the attempt `a` on the network `net`. -/
def Smtp.run (net : Smtp) (a : Attempt) : GoError :=
  match a.method with
  | Method.STARTTLS => net.sendMailWithSTARTTLS a.smtpServer a.port a.toEmail a.body
  | Method.SSL => net.sendMailWithSSL a.smtpServer a.port a.toEmail a.body
  | Method.Plain => net.sendMailPlain a.smtpServer a.port a.toEmail a.body

/-- The fixed order of the fallback chain for a mapped port. -/
def fallbackChain (smtpServer smtpPort toEmail : Str) (body : Bytes) : List Attempt :=
  (if smtpPort = "587".toList then [⟨Method.STARTTLS, smtpServer, smtpPort, toEmail, body⟩]
   else []) ++
  [⟨Method.SSL, smtpServer, "465".toList, toEmail, body⟩,
   ⟨Method.Plain, smtpServer, "25".toList, toEmail, body⟩]

/-- Function `MailClient.getSMTPServer`. -/
def getSMTPServer (config : Config) : Str :=
  let server := config.Server
  if Contains server "qq.com".toList then "smtp.qq.com".toList
  else if Contains server "gmail.com".toList then "smtp.gmail.com".toList
  else if Contains server "163.com".toList then "smtp.163.com".toList
  else if Contains server "126.com".toList then "smtp.126.com".toList
  else ReplaceFirst server "imap.".toList "smtp.".toList

/-- Function `MailClient.getSMTPPort`. -/
def getSMTPPort (config : Config) : Str :=
  let server := config.Server
  if Contains server "qq.com".toList then "587".toList
  else if Contains server "gmail.com".toList then "587".toList
  else if Contains server "163.com".toList then "25".toList
  else if Contains server "126.com".toList then "25".toList
  else "587".toList

/-- The address `fmt.Sprintf("%s:%s", smtpServer, port)` every attempt dials. -/
def dialAddr (smtpServer port : Str) : Str := smtpServer ++ ":".toList ++ port

/-- A client configuration with the given retrieval server. -/
def configFor (server : Str) : Config :=
  { AccountID := 1, Provider := "mail".toList, Address := "test@example.com".toList,
    Username := "test@example.com".toList, Password := "password".toList,
    Server := server, Settings := [], LastUID := 0 }

/-! ## Retrieval transport (`internal/mail/client.go`, `internal/config/config.go`) -/

/-- An open session with the retrieval server (Go `*client.Client`). -/
abbrev Session := Nat

/-- Type `config.MailConfig`. -/
structure MailConfig where
  PollingInterval : Int
  MaxRetryCount : Int
  RetryInterval : Int
deriving DecidableEq

/-- Type `config.Config`, with the part the transport and the scheduler read. -/
structure AppConfig where
  Mail : MailConfig
deriving DecidableEq

/-- Type `mail.MailClient`: `client` is the live session (`none` for `nil`),
`stopChanClosed` tells whether `stopChan` has been closed, `appConfig` is the
application configuration pointer (`none` for `nil`). -/
structure MailClient where
  config : Config
  client : Option Session
  stopChanClosed : Bool
  appConfig : Option AppConfig
deriving DecidableEq

/-- Type `imap.Address`. -/
structure Address where
  PersonalName : Str
  MailboxName : Str
  HostName : Str
deriving DecidableEq

/-- Type `imap.Envelope`, with the fields the client reads. -/
structure Envelope where
  Subject : Str
  From : List Address
  To : List Address
deriving DecidableEq

/-- Type `imap.Message`, with the fields the client reads: `Body` maps a body
section name to its literal (`none` for a `nil` map). -/
structure Message where
  Envelope : Option Envelope
  Body : Option (List (Str × Bytes))
  Uid : Nat
deriving DecidableEq

/-- Type `imap.SearchCriteria`, with the fields the client sets. -/
structure SearchCriteria where
  Since : Int
  WithoutFlags : List Str
deriving DecidableEq

/-- The protocol operations of the transport, in program order. -/
inductive NetEvent where
  | dialTLS (server : Str)
  | login (s : Session) (username password : Str)
  | logout (s : Session)
  | noop (s : Session)
  | sleep (seconds : Int)
  | select (s : Session) (mailbox : Str)
  | search (s : Session) (criteria : SearchCriteria)
  | fetch (s : Session) (uids : List Nat)
deriving DecidableEq

/-- What the retrieval server and the libraries answer to one client:
`initDial` and `initLogin` to the calls of `Init`; `dialTLS server i` and
`login s user pass i` to attempt number `i` (from 0) of the two retry loops of
`reconnect`; `read` is `message.Read` followed by `Header.Get`; `now` is the
clock, in seconds. -/
structure Imap where
  initDial : Str → Except Str Session
  initLogin : Session → Str → Str → GoError
  dialTLS : Str → Nat → Except Str Session
  login : Session → Str → Str → Nat → GoError
  noop : Session → GoError
  logout : Session → GoError
  select : Session → Str → GoError
  search : Session → SearchCriteria → Except Str (List Nat)
  fetch : Session → List Nat → Except Str (List Message)
  read : Bytes → Except Str (Str → Str)
  now : Nat

/-- Client state, protocol operations, returned error and whether the call
ended in a run-time panic (a method call on a `nil` session). -/
structure ConnResult where
  client : MailClient
  events : List NetEvent
  err : GoError
  panicked : Bool
deriving DecidableEq

/-- Run `r` after the protocol operations `pre` have happened. -/
def ConnResult.after (pre : List NetEvent) (r : ConnResult) : ConnResult :=
  { r with events := pre ++ r.events }

/-- Marker that starts the error of a failed connect step. -/
def msgConnectFailed : Str := "连接IMAP服务器失败: ".toList

/-- Marker that starts the error of a failed authenticate step. -/
def msgLoginFailed : Str := "IMAP登录失败: ".toList

/-- The retrieval endpoint: the default port is added when `server` has none. -/
def serverAddr (server : Str) : Str :=
  if ¬ Contains server ":".toList then server ++ ":993".toList else server

/-- The connect loop of `reconnect`, `for i := 0; i < maxRetryCount; i++`, with
`k` iterations left at attempt `i`: returns the variables `imapClient` and
`err` after the loop, and the operations made. -/
def connectLoop (net : Imap) (server : Str) (retryInterval : Int) :
    Nat → Nat → Option Session → GoError → Option Session × GoError × List NetEvent
  | 0, _, imapClient, err => (imapClient, err, [])
  | k + 1, i, _, _ =>
    match net.dialTLS server i with
    | Except.ok s => (some s, none, [NetEvent.dialTLS server])
    | Except.error e =>
      let r := connectLoop net server retryInterval k (i + 1) none (some e)
      (r.1, r.2.1, NetEvent.dialTLS server :: NetEvent.sleep retryInterval :: r.2.2)

/-- The login loop of `reconnect`, with `k` iterations left at attempt `i`:
returns the variable `loginErr` after the loop, the operations made, and
whether `Login` was called on a `nil` client. -/
def loginLoop (net : Imap) (imapClient : Option Session) (username password : Str)
    (retryInterval : Int) : Nat → Nat → GoError → GoError × List NetEvent × Bool
  | 0, _, loginErr => (loginErr, [], false)
  | k + 1, i, loginErr =>
    match imapClient with
    | none => (loginErr, [], true)
    | some s =>
      match net.login s username password i with
      | none => (loginErr, [NetEvent.login s username password], false)
      | some e =>
        let r := loginLoop net imapClient username password retryInterval k (i + 1) (some e)
        (r.1, NetEvent.login s username password :: NetEvent.sleep retryInterval :: r.2.1, r.2.2)

/-- The retry count `reconnect` uses. -/
def maxRetryCount (c : MailClient) : Int :=
  match c.appConfig with
  | some a => a.Mail.MaxRetryCount
  | none => 3

/-- The retry interval `reconnect` uses. -/
def retryInterval (c : MailClient) : Int :=
  match c.appConfig with
  | some a => a.Mail.RetryInterval
  | none => 1

/-- Function `MailClient.reconnect`. -/
def reconnect (net : Imap) (c : MailClient) : ConnResult :=
  let closing : List NetEvent :=
    match c.client with
    | some s => [NetEvent.logout s]
    | none => []
  let c := { c with client := none }
  let server := serverAddr c.config.Server
  let dial := connectLoop net server (retryInterval c) (maxRetryCount c).toNat 0 none none
  match dial.2.1 with
  | some err => ⟨c, closing ++ dial.2.2, some (msgConnectFailed ++ err), false⟩
  | none =>
    let auth := loginLoop net dial.1 c.config.Username c.config.Password (retryInterval c)
      (maxRetryCount c).toNat 0 none
    if auth.2.2 then ⟨c, closing ++ dial.2.2 ++ auth.2.1, none, true⟩
    else
      match auth.1 with
      | some loginErr =>
        match dial.1 with
        | none => ⟨c, closing ++ dial.2.2 ++ auth.2.1, none, true⟩
        | some s =>
          ⟨c, closing ++ dial.2.2 ++ auth.2.1 ++ [NetEvent.logout s],
            some (msgLoginFailed ++ loginErr), false⟩
      | none => ⟨{ c with client := dial.1 }, closing ++ dial.2.2 ++ auth.2.1, none, false⟩

/-- Function `MailClient.ensureConnection`. -/
def ensureConnection (net : Imap) (c : MailClient) : ConnResult :=
  match c.client with
  | none => reconnect net c
  | some s =>
    match net.noop s with
    | some _ => (reconnect net c).after [NetEvent.noop s]
    | none => ⟨c, [NetEvent.noop s], none, false⟩

/-- The connect attempts among the protocol operations. -/
def dialAttempts : List NetEvent → List Str
  | [] => []
  | NetEvent.dialTLS server :: es => server :: dialAttempts es
  | _ :: es => dialAttempts es

/-- The login attempts among the protocol operations. -/
def loginAttempts : List NetEvent → List Session
  | [] => []
  | NetEvent.login s _ _ :: es => s :: loginAttempts es
  | _ :: es => loginAttempts es

/-- The error `e` is the one `reconnect` returns for a failed connect step. -/
def IsConnectError (e : GoError) : Prop := ∃ detail : Str, e = some (msgConnectFailed ++ detail)

/-- The error `e` is the one `reconnect` returns for a failed authenticate step. -/
def IsAuthError (e : GoError) : Prop := ∃ detail : Str, e = some (msgLoginFailed ++ detail)

/-! ## Outbound content (`MailClient.SendEmail`, `MailClient.SendRawEmail`) -/

/-- Go conversion `[]byte(s)`: the UTF-8 encoding of the text. -/
def toBytes (s : Str) : Bytes := s.flatMap String.utf8EncodeChar

/-- The text `SendEmail` writes in place of an empty body. -/
def placeholderBody : Str := "邮件内容".toList

/-- The header line `fmt.Sprintf("%s: %s\r\n", key, value)`. -/
def headerLine (key value : Str) : Str := key ++ ": ".toList ++ value ++ "\r\n".toList

/-- The entries of the `headers` map that `SendEmail` fills (the keys are
pairwise distinct, so every assignment adds an entry). -/
def sendHeaders (c : MailClient) (email : Email) (toEmail : Str) : List (Str × Str) :=
  [("From".toList, c.config.Username),
   ("To".toList, toEmail),
   ("Subject".toList, email.Subject),
   ("Resent-From".toList, c.config.Username),
   ("Resent-To".toList, toEmail),
   ("X-Forwarded-By".toList, "Mail-Dispatcher-System".toList)] ++
  (if email.From ≠ [] then [("Original-From".toList, email.From)] else [])

/-- Marker that starts the error of `MailClient.SendEmail`. -/
def msgSendFailed : Str := "发送邮件失败: ".toList

/-- Marker that starts the error of `MailClient.SendRawEmail`. -/
def msgSendRawFailed : Str := "发送原始邮件失败: ".toList

/-- Function `MailClient.SendEmail`: the delivery attempts made and the returned
error. `order` is the order in which `range` visits the entries of the
`headers` map, which Go leaves unspecified. -/
def SendEmail (net : Smtp) (order : List (Str × Str) → List (Str × Str)) (c : MailClient)
    (email : Email) (toEmail : Str) : List Attempt × GoError :=
  let headers := sendHeaders c email toEmail
  let body : Bytes :=
    (order headers).foldl (fun body kv => body ++ toBytes (headerLine kv.1 kv.2)) []
  let body := body ++ toBytes "\r\n".toList
  let body :=
    if email.Body ≠ [] then body ++ toBytes email.Body else body ++ toBytes placeholderBody
  let smtpServer := getSMTPServer c.config
  let smtpPort := getSMTPPort c.config
  match sendMailWithFallback net smtpServer smtpPort toEmail body with
  | (attempts, some err) => (attempts, some (msgSendFailed ++ err))
  | (attempts, none) => (attempts, none)

/-- Function `MailClient.addForwardHeaders`. -/
def addForwardHeaders (c : MailClient) (rawData : Bytes) (toEmail : Str) : Bytes :=
  let headers : List Str :=
    ["Resent-From: ".toList ++ c.config.Username,
     "Resent-To: ".toList ++ toEmail,
     "X-Forwarded-By: Mail-Dispatcher-System".toList,
     []]
  let result : Bytes :=
    headers.foldl (fun result header => result ++ toBytes (header ++ "\r\n".toList)) []
  result ++ rawData

/-- Function `MailClient.SendRawEmail`: the delivery attempts made and the
returned error. -/
def SendRawEmail (net : Smtp) (c : MailClient) (rawData : Bytes) (toEmail : Str) :
    List Attempt × GoError :=
  let forwardedData := addForwardHeaders c rawData toEmail
  let smtpServer := getSMTPServer c.config
  let smtpPort := getSMTPPort c.config
  match sendMailWithFallback net smtpServer smtpPort toEmail forwardedData with
  | (attempts, some err) => (attempts, some (msgSendRawFailed ++ err))
  | (attempts, none) => (attempts, none)

/-! ## Fetching (`MailClient.parseMessage`, `MailClient.FetchNewEmails`) -/

set_option linter.dupNamespace false in
/-- Method `Address.Address` of go-imap: mailbox name, "@", host name. -/
def Address.Address (addr : Address) : Str := addr.MailboxName ++ "@".toList ++ addr.HostName

/-- Method `Message.GetBody` of go-imap: the literal stored for the section
`name`. -/
def GetBody (msg : Message) (name : Str) : Option Bytes :=
  match msg.Body with
  | none => none
  | some m =>
    match m.find? (fun p => decide (p.1 = name)) with
    | some p => some p.2
    | none => none

/-- The verb `%d` of `fmt.Sprintf` for an unsigned integer: its decimal digits. -/
def formatUint (n : Nat) : Str := Nat.toDigits 10 n

/-- Function `MailClient.parseMessage`: the message built and the returned error. -/
def parseMessage (net : Imap) (c : MailClient) (msg : Message) : Email × GoError :=
  let email : Email :=
    { MessageID := [], Subject := [], From := [], To := [], Body := [], RawData := [],
      ReceivedAt := net.now }
  let email :=
    match msg.Envelope with
    | some envelope =>
      let email :=
        if envelope.Subject.length > 0 then { email with Subject := envelope.Subject } else email
      let email :=
        match envelope.From with
        | addr :: _ => { email with From := addr.Address }
        | [] => email
      match envelope.To with
      | addr :: _ => { email with To := addr.Address }
      | [] => email
    | none => email
  let email :=
    if email.Subject = [] ∧ msg.Body ≠ none then
      match GetBody msg [] with
      | some r =>
        match net.read r with
        | Except.error _ => email
        | Except.ok header =>
          let email :=
            if header "Subject".toList ≠ [] then { email with Subject := header "Subject".toList }
            else email
          let email :=
            if header "From".toList ≠ [] then { email with From := header "From".toList }
            else email
          if header "To".toList ≠ [] then { email with To := header "To".toList } else email
      | none => email
    else email
  ({ email with
      MessageID := formatUint c.config.AccountID ++ "-".toList ++ formatUint msg.Uid }, none)

/-- Client state, protocol operations, returned messages and error of
`FetchNewEmails`, and whether the call ended in a run-time panic. -/
structure FetchResult where
  client : MailClient
  events : List NetEvent
  emails : List Email
  err : GoError
  panicked : Bool
deriving DecidableEq

/-- The search criteria of `FetchNewEmails`: received within the last seven
days (`time.Now().AddDate(0, 0, -7)`, days of 86400 seconds) and unread. -/
def unreadCriteria (net : Imap) : SearchCriteria :=
  { Since := (net.now : Int) - 7 * 86400, WithoutFlags := ["\\Seen".toList] }

/-- The loop of `FetchNewEmails` over the fetched messages: a message whose
parse fails is skipped. -/
def collectEmails (net : Imap) (c : MailClient) : List Message → List Email → List Email
  | [], emails => emails
  | msg :: rest, emails =>
    match parseMessage net c msg with
    | (_, some _) => collectEmails net c rest emails
    | (email, none) => collectEmails net c rest (emails ++ [email])

/-- Function `MailClient.FetchNewEmails`. -/
def FetchNewEmails (net : Imap) (c : MailClient) : FetchResult :=
  let conn := ensureConnection net c
  if conn.panicked then ⟨conn.client, conn.events, [], none, true⟩
  else
    match conn.err with
    | some err => ⟨conn.client, conn.events, [], some ("确保连接失败: ".toList ++ err), false⟩
    | none =>
      match conn.client.client with
      | none => ⟨conn.client, conn.events, [], none, true⟩
      | some s =>
        match net.select s "INBOX".toList with
        | some err =>
          ⟨conn.client, conn.events ++ [NetEvent.select s "INBOX".toList], [],
            some ("选择收件箱失败: ".toList ++ err), false⟩
        | none =>
          let criteria := unreadCriteria net
          match net.search s criteria with
          | Except.error err =>
            ⟨conn.client,
              conn.events ++ [NetEvent.select s "INBOX".toList, NetEvent.search s criteria], [],
              some ("搜索邮件失败: ".toList ++ err), false⟩
          | Except.ok uids =>
            if uids.length = 0 then
              ⟨conn.client,
                conn.events ++ [NetEvent.select s "INBOX".toList, NetEvent.search s criteria],
                [], none, false⟩
            else
              match net.fetch s uids with
              | Except.error err =>
                ⟨conn.client,
                  conn.events ++ [NetEvent.select s "INBOX".toList, NetEvent.search s criteria,
                    NetEvent.fetch s uids], [],
                  some ("获取邮件内容失败: ".toList ++ err), false⟩
              | Except.ok messages =>
                ⟨conn.client,
                  conn.events ++ [NetEvent.select s "INBOX".toList, NetEvent.search s criteria,
                    NetEvent.fetch s uids],
                  collectEmails net conn.client messages [], none, false⟩

/-- The fetch requests among the protocol operations. -/
def fetchRequests : List NetEvent → List (List Nat)
  | [] => []
  | NetEvent.fetch _ uids :: es => uids :: fetchRequests es
  | _ :: es => fetchRequests es

/-! ## Scheduler (`internal/services/scheduler_service.go`) -/

/-- Type `models.MailAccount` (the store-managed timestamps are left out;
`DeletedAt` is the soft-delete mark that every query filters on). -/
structure MailAccount where
  ID : Nat
  Address : Str
  Username : Str
  Password : Str
  Server : Str
  Settings : Str
  LastUID : Nat
  IsActive : Bool
  DeletedAt : Option Nat
deriving DecidableEq

/-- Function `mail.NewMailClient`. -/
def NewMailClient (appConfig : Option AppConfig) : MailClient :=
  { config :=
      { AccountID := 0, Provider := [], Address := [], Username := [], Password := [],
        Server := [], Settings := [], LastUID := 0 }
    client := none
    stopChanClosed := false
    appConfig := appConfig }

/-- Function `MailClient.Init`. -/
def Init (net : Imap) (c : MailClient) (config : Config) : ConnResult :=
  let c := { c with config := config }
  let server := serverAddr config.Server
  match net.initDial server with
  | Except.error err => ⟨c, [NetEvent.dialTLS server], some (msgConnectFailed ++ err), false⟩
  | Except.ok imapClient =>
    match net.initLogin imapClient config.Username config.Password with
    | some err =>
      ⟨c, [NetEvent.dialTLS server, NetEvent.login imapClient config.Username config.Password,
          NetEvent.logout imapClient], some (msgLoginFailed ++ err), false⟩
    | none =>
      ⟨{ c with client := some imapClient },
        [NetEvent.dialTLS server, NetEvent.login imapClient config.Username config.Password],
        none, false⟩

/-- Function `MailClient.Stop`: closing `stopChan` a second time panics. -/
def Stop (net : Imap) (c : MailClient) : ConnResult :=
  if c.stopChanClosed then ⟨c, [], none, true⟩
  else
    let c := { c with stopChanClosed := true }
    match c.client with
    | some s => ⟨c, [NetEvent.logout s], net.logout s, false⟩
    | none => ⟨c, [], none, false⟩

/-- Function `SchedulerService.createMailClient`: on an error the caller gets
no client. -/
def createMailClient (appConfig : Option AppConfig) (net : Imap) (account : MailAccount) :
    ConnResult :=
  let mailClient := NewMailClient appConfig
  let config : Config :=
    { AccountID := account.ID
      Provider := "mail".toList
      Address := account.Address
      Username := account.Username
      Password := account.Password
      Server := account.Server
      Settings := account.Settings
      LastUID := account.LastUID }
  Init net mailClient config

/-- The query `db.Where("is_active = ?", true).Find(&accounts)` of
`SchedulerService.getActiveAccounts`, on the table `accounts`; `accountsErr` is
the store failure of the query, if any. -/
def getActiveAccounts (accountsErr : GoError) (accounts : List MailAccount) :
    List MailAccount × GoError :=
  match accountsErr with
  | some err => ([], some err)
  | none => (accounts.filter (fun a => a.IsActive && a.DeletedAt.isNone), none)

/-- The effects of one poll task, in program order. -/
inductive PollEvent where
  | net (e : NetEvent)
  | processEmail (email : Email) (accountID : Nat)
  | stop
deriving DecidableEq

/-- Effects of `pollAccount`, the messages it hands to `ProcessEmail`, and
whether the task ended in a run-time panic. -/
structure PollResult where
  trace : List PollEvent
  emails : List Email
  panicked : Bool
deriving DecidableEq

/-- Function `SchedulerService.pollAccount`, up to the store: which messages
it routes, and its effects. The result of a `ProcessEmail` call is only
logged, so it does not influence the task. -/
def pollAccount (appConfig : Option AppConfig) (net : Imap) (account : MailAccount) :
    PollResult :=
  let created := createMailClient appConfig net account
  match created.err with
  | some _ => ⟨created.events.map PollEvent.net, [], false⟩
  | none =>
    let mailClient := created.client
    let fetched := FetchNewEmails net mailClient
    let stopped := Stop net fetched.client
    let closing := PollEvent.stop :: stopped.events.map PollEvent.net
    if fetched.panicked then
      ⟨created.events.map PollEvent.net ++ fetched.events.map PollEvent.net ++ closing, [], true⟩
    else
      match fetched.err with
      | some _ =>
        ⟨created.events.map PollEvent.net ++ fetched.events.map PollEvent.net ++ closing, [],
          stopped.panicked⟩
      | none =>
        ⟨created.events.map PollEvent.net ++ fetched.events.map PollEvent.net ++
          fetched.emails.map (fun email => PollEvent.processEmail email account.ID) ++ closing,
          fetched.emails, stopped.panicked⟩

/-- The task of `pollAccount` ended on a connect or fetch failure: either
`createMailClient` or `FetchNewEmails` returned an error. -/
def PollFails (appConfig : Option AppConfig) (net : Imap) (account : MailAccount) : Prop :=
  (createMailClient appConfig net account).err ≠ none ∨
  ((FetchNewEmails net (createMailClient appConfig net account).client).panicked = false ∧
    (FetchNewEmails net (createMailClient appConfig net account).client).err ≠ none)

/-- What is left to run of a concurrent task, as far as the store goes: every
store operation is one atomic step that updates the store with `write` and
continues with `next`, which may depend on what the operation read; `crash` is
a run-time panic, which ends the whole process. -/
inductive PollTask where
  | done : PollTask
  | crash : PollTask
  | step (write : Store → Store) (next : Store → PollTask) : PollTask

/-- Run a task alone until it ends. -/
def PollTask.run : PollTask → Store → Store
  | PollTask.done, st => st
  | PollTask.crash, st => st
  | PollTask.step write next, st => PollTask.run (next st) (write st)

/-- Function `MailRoutingService.ProcessEmail` as a task, followed by `k`: the
duplicate lookup, the target lookup and the append are separate steps, between
which other tasks may run. -/
def ProcessEmailTask (env : Env) (email : Email) (accountID : Nat) (k : PollTask) : PollTask :=
  PollTask.step id fun st =>
    match firstLog env st email.MessageID accountID with
    | Except.ok _ => k
    | Except.error _ =>
      match parseSubject email.Subject with
      | (_, _, some err) =>
        PollTask.step
          (fun st2 => (logFailedEmail env st2 email accountID (msgParseFailed ++ err)).store)
          (fun _ => k)
      | (_, targetName, none) =>
        PollTask.step id fun st2 =>
          match firstTarget env st2 targetName with
          | Except.error _ =>
            PollTask.step
              (fun st3 =>
                (logFailedEmail env st3 email accountID (msgTargetNotFound ++ targetName)).store)
              (fun _ => k)
          | Except.ok target =>
            match env.sendEmail email target.Email accountID with
            | some err =>
              PollTask.step
                (fun st3 =>
                  (logFailedEmail env st3 email accountID (msgForwardFailed ++ err)).store)
                (fun _ => k)
            | none =>
              PollTask.step
                (fun st3 => (logSuccessfulEmail env st3 email accountID target.Email).store)
                (fun _ => k)

/-- The loop of `pollAccount` over the fetched messages, as a task; `env i` are
the collaborators of the call for message number `i`. -/
def processAll (env : Nat → Env) (accountID : Nat) : List Email → Nat → PollTask
  | [], _ => PollTask.done
  | email :: rest, i =>
    ProcessEmailTask (env i) email accountID (processAll env accountID rest (i + 1))

/-- Type `SchedulerService` with its surroundings: the application
configuration, the accounts table and the store failure of its query (if any),
what the server of each account answers during a pass, and the collaborators of
the `ProcessEmail` call for message number `i` of account `id`. -/
structure SchedulerService where
  config : Option AppConfig
  accounts : List MailAccount
  accountsErr : GoError
  net : MailAccount → Imap
  env : Nat → Nat → Env

/-- The goroutine `go s.pollAccount(account)`, as far as the store goes. -/
def pollAccountTask (sch : SchedulerService) (account : MailAccount) : PollTask :=
  let r := pollAccount sch.config (sch.net account) account
  if r.panicked then PollTask.crash
  else processAll (sch.env account.ID) account.ID r.emails 0

/-- Function `SchedulerService.pollAllAccounts`: the tasks it launches. -/
def pollAllAccounts (sch : SchedulerService) : List PollTask :=
  match getActiveAccounts sch.accountsErr sch.accounts with
  | (_, some _) => []
  | (accounts, none) => accounts.map (pollAccountTask sch)

/-- The store after the concurrent tasks `pool` have run under the schedule
`sched`, which names the task that makes the next step; a name that is out of
range or belongs to a finished task is passed over, and a task that panics
ends the run. -/
def runPool : List PollTask → List Nat → Store → Store
  | _, [], st => st
  | pool, i :: sched, st =>
    match pool[i]? with
    | some (PollTask.step write next) => runPool (pool.set i (next st)) sched (write st)
    | some PollTask.crash => st
    | _ => runPool pool sched st

/-- The schedule `sched` of a pool, renamed for the pool without task `j`. -/
def dropIndex (j : Nat) (sched : List Nat) : List Nat :=
  sched.filterMap (fun i => if i < j then some i else if i = j then none else some (i - 1))

/-- The schedule `sched` of a pool, renamed for the pool with one more task at
position `j`. -/
def liftIndex (j : Nat) (sched : List Nat) : List Nat :=
  sched.map (fun i => if i < j then i else i + 1)

/-- State of the ticking loop and its two channels: `stopClosed` tells whether
`stopChan` is closed, `tickPending` whether a tick is buffered in `ticker.C`,
`running` whether `pollingLoop` has not returned; `passes` has one entry for
every `pollAllAccounts` call of the loop, telling whether `stopChan` was closed
when the call began. -/
structure LoopState where
  stopClosed : Bool
  tickPending : Bool
  running : Bool
  passes : List Bool
deriving DecidableEq

/-- What can happen to the ticking loop: a call of `Stop`, the ticker firing,
and the `select` of the loop taking one of its two cases. -/
inductive LoopAction where
  | stop
  | tick
  | selectStop
  | selectTick
deriving DecidableEq

/-- One step of the loop: `none` when the action cannot happen in the state.
`Stop` closes `stopChan`; the ticker buffers a tick; the `select` of
`pollingLoop` may take every case whose channel is ready: `case <-s.stopChan`
returns, `case <-ticker.C` calls `pollAllAccounts`. -/
def loopStep (s : LoopState) : LoopAction → Option LoopState
  | LoopAction.stop => if s.stopClosed then none else some { s with stopClosed := true }
  | LoopAction.tick => some { s with tickPending := true }
  | LoopAction.selectStop =>
    if s.running && s.stopClosed then some { s with running := false } else none
  | LoopAction.selectTick =>
    if s.running && s.tickPending then
      some { s with tickPending := false, passes := s.passes ++ [s.stopClosed] }
    else none

/-- An execution of the loop from the state `s`. -/
def runLoop (s : LoopState) : List LoopAction → Option LoopState
  | [] => some s
  | a :: rest =>
    match loopStep s a with
    | some s2 => runLoop s2 rest
    | none => none

/-- The loop as `Start` launches it: nothing closed, no tick, no pass yet. -/
def loopStart : LoopState :=
  { stopClosed := false, tickPending := false, running := true, passes := [] }

/-! ## A poll task run on the store -/

/-- The loop of `pollAccount` over the fetched messages, run on the store:
the final store, the `ProcessEmail` calls made, and what each call returned
(an error is logged and the loop goes on). `env i` are the collaborators of the
call for message number `i`. -/
def processLoop (env : Nat → Env) (accountID : Nat) :
    List Email → Nat → Store → Store × List PollEvent × List GoError
  | [], _, st => (st, [], [])
  | email :: rest, i, st =>
    let r := ProcessEmail (env i) st email accountID
    let next := processLoop env accountID rest (i + 1) r.store
    (next.1, PollEvent.processEmail email accountID :: next.2.1, r.err :: next.2.2)

/-- Final store, effects and `ProcessEmail` results of one poll task that runs
alone, and whether the task ended in a run-time panic. -/
structure PollRun where
  store : Store
  trace : List PollEvent
  errs : List GoError
  panicked : Bool

/-- Function `SchedulerService.pollAccount`, run alone on the store `st`. -/
def pollAccountRun (appConfig : Option AppConfig) (net : Imap) (env : Nat → Env)
    (account : MailAccount) (st : Store) : PollRun :=
  let created := createMailClient appConfig net account
  match created.err with
  | some _ => ⟨st, created.events.map PollEvent.net, [], false⟩
  | none =>
    let mailClient := created.client
    let fetched := FetchNewEmails net mailClient
    let stopped := Stop net fetched.client
    let closing := PollEvent.stop :: stopped.events.map PollEvent.net
    if fetched.panicked then
      ⟨st, created.events.map PollEvent.net ++ fetched.events.map PollEvent.net ++ closing, [],
        true⟩
    else
      match fetched.err with
      | some _ =>
        ⟨st, created.events.map PollEvent.net ++ fetched.events.map PollEvent.net ++ closing, [],
          stopped.panicked⟩
      | none =>
        let loop := processLoop env account.ID fetched.emails 0 st
        ⟨loop.1,
          created.events.map PollEvent.net ++ fetched.events.map PollEvent.net ++ loop.2.1 ++
            closing,
          loop.2.2, stopped.panicked⟩

/-- The `ProcessEmail` calls among the effects of a poll task. -/
def processCalls : List PollEvent → List (Email × Nat)
  | [] => []
  | PollEvent.processEmail email accountID :: es => (email, accountID) :: processCalls es
  | _ :: es => processCalls es

/-- The number of `mailClient.Stop` calls among the effects of a poll task. -/
def stopCalls : List PollEvent → Nat
  | [] => 0
  | PollEvent.stop :: es => stopCalls es + 1
  | _ :: es => stopCalls es

/-! ## Reading a message identifier back -/

/-- The number a sequence of decimal digits denotes. -/
def parseUint (l : Str) : Nat := l.foldl (fun acc ch => acc * 10 + (ch.toNat - 48)) 0

/-! ## Sample data -/

/-- A collaborator environment without store failures in which delivery succeeds. -/
def okEnv : Env :=
  { findLogErr := none, findTargetErr := none, createErr := none,
    sendEmail := fun _ _ _ => none, now := 100 }

/-- A collaborator environment without store failures in which delivery fails. -/
def failEnv : Env :=
  { findLogErr := none, findTargetErr := none, createErr := none,
    sendEmail := fun _ _ _ => some "发送邮件失败: timeout".toList, now := 100 }

/-- A collaborator environment in which the duplicate lookup fails with a
store error, every other operation succeeding. -/
def lostEnv : Env :=
  { okEnv with findLogErr := some "invalid connection".toList }

/-- A message of account 1 with a well-formed subject. -/
def sampleEmail : Email :=
  { MessageID := "1-7".toList, Subject := "报警 - 张三".toList, From := "ops@example.com".toList,
    To := "inbox@example.com".toList, Body := [], RawData := [], ReceivedAt := 50 }

/-- A message of account 1 whose subject has no separator. -/
def badEmail : Email :=
  { sampleEmail with Subject := "报警张三".toList }

/-- The forward target named by `sampleEmail`. -/
def sampleTarget : ForwardTarget :=
  { ID := 1, Name := "张三".toList, Email := "zhangsan@example.com".toList,
    Description := [], DeletedAt := none }

/-- An outcome already recorded for `sampleEmail`. -/
def sampleLog : MailLog :=
  { AccountID := 1, MessageID := "1-7".toList, Subject := "报警 - 张三".toList,
    From := "ops@example.com".toList, To := "inbox@example.com".toList, ReceivedAt := 50,
    ForwardTo := "zhangsan@example.com".toList, Status := "forwarded".toList, Error := [],
    ForwardedAt := some 60 }

/-- A client of `configFor "imap.example.com:993"` without session, with the
retry count 3 and the retry interval 60 of the default configuration. -/
def sampleClient : MailClient :=
  { config := configFor "imap.example.com:993".toList, client := none, stopChanClosed := false,
    appConfig := some ⟨⟨300, 3, 60⟩⟩ }

/-- A server that accepts every connection as session 7 and every operation. -/
def okImap : Imap :=
  { initDial := fun _ => Except.ok 7
    initLogin := fun _ _ _ => none
    dialTLS := fun _ _ => Except.ok 7
    login := fun _ _ _ _ => none
    noop := fun _ => none
    logout := fun _ => none
    select := fun _ _ => none
    search := fun _ _ => Except.ok []
    fetch := fun _ _ => Except.ok []
    read := fun _ => Except.error "EOF".toList
    now := 100 }

/-- A server on which the first login attempt of `reconnect` fails and every
later one succeeds. -/
def flakyLoginImap : Imap :=
  { okImap with
    login := fun _ _ _ i => if i = 0 then some "authentication failed".toList else none }

/-- A server on which the first connect attempt of `reconnect` fails and every
later one succeeds. -/
def flakyDialImap : Imap :=
  { okImap with
    dialTLS := fun _ i => if i = 0 then Except.error "timeout".toList else Except.ok 7 }

/-- A collaborator environment in which the target lookup fails with a store
error, every other operation succeeding. -/
def lostTargetEnv : Env :=
  { okEnv with findTargetErr := some "invalid connection".toList }

/-- A network on which every delivery attempt fails. -/
def downSmtp : Smtp :=
  { sendMailWithSTARTTLS := fun _ _ _ _ => some "连接SMTP服务器失败: timeout".toList
    sendMailWithSSL := fun _ _ _ _ => some "连接SMTP服务器失败: timeout".toList
    sendMailPlain := fun _ _ _ _ => some "连接SMTP服务器失败: timeout".toList }

/-- A client of account 1 that holds the session 7. -/
def liveClient : MailClient :=
  { sampleClient with client := some 7 }

/-- A fetched message with an envelope, UID 7. -/
def sampleMessage : Message :=
  { Envelope := some
      { Subject := "报警 - 张三".toList,
        From := [⟨[], "ops".toList, "example.com".toList⟩],
        To := [⟨[], "inbox".toList, "example.com".toList⟩] },
    Body := some [], Uid := 7 }

/-- A server that refuses the connection of `Init`. -/
def downImap : Imap :=
  { okImap with initDial := fun _ => Except.error "connection refused".toList }

/-- A server that has one unread message, `sampleMessage`. -/
def oneMessageImap : Imap :=
  { okImap with
    search := fun _ _ => Except.ok [3]
    fetch := fun _ _ => Except.ok [sampleMessage] }

/-- The enabled account 1. -/
def account1 : MailAccount :=
  { ID := 1, Address := "inbox@example.com".toList, Username := "inbox@example.com".toList,
    Password := "password".toList, Server := "imap.example.com:993".toList, Settings := [],
    LastUID := 0, IsActive := true, DeletedAt := none }

/-- The enabled account 2, whose server is down. -/
def account2 : MailAccount :=
  { account1 with
    ID := 2
    Address := "second@example.org".toList
    Server := "imap.example.org:993".toList }

/-- A scheduler over the two accounts: account 1 has one unread message, the
server of account 2 refuses the connection. -/
def sampleScheduler : SchedulerService :=
  { config := some ⟨⟨300, 3, 60⟩⟩
    accounts := [account2, account1]
    accountsErr := none
    net := fun a => if a.ID = 1 then oneMessageImap else downImap
    env := fun _ _ => okEnv }

/-- The zero-value application configuration `&config.Config{}`. -/
def zeroAppConfig : AppConfig := ⟨⟨0, 0, 0⟩⟩

/-- A client without session whose application configuration is the zero value. -/
def zeroClient : MailClient :=
  { sampleClient with appConfig := some zeroAppConfig }

/-- A collaborator environment in which the outcome append fails. -/
def fullEnv : Env :=
  { okEnv with createErr := some "disk full".toList }

/-- A fetched message without envelope, UID 7. -/
def bareMessage : Message :=
  { Envelope := none, Body := none, Uid := 7 }

/-- A server that accepts the connection of `Init` as session 7 and then fails
the no-op probe of that session. -/
def probeFailImap : Imap :=
  { okImap with noop := fun _ => some "connection closed".toList }

/-- A scheduler with the retry count 0 over the two accounts: account 1 has one
unread message, the session of account 2 fails its probe. -/
def zeroScheduler : SchedulerService :=
  { config := some zeroAppConfig
    accounts := [account2, account1]
    accountsErr := none
    net := fun a => if a.ID = 1 then oneMessageImap else probeFailImap
    env := fun _ _ => okEnv }

/-! ## Facts about the string helpers -/

theorem Cut_eq_some {sep : Str} : ∀ {s a b : Str}, Cut sep s = some (a, b) → s = a ++ sep ++ b
  | [], a, b, h => by
    simp only [Cut] at h
    split at h
    · rename_i hp
      cases sep with
      | nil => simp at h; obtain ⟨rfl, rfl⟩ := h; rfl
      | cons x xs => simp [List.isPrefixOf] at hp
    · simp at h
  | c :: cs, a, b, h => by
    simp only [Cut] at h
    split at h
    · rename_i hp
      simp only [Option.some.injEq, Prod.mk.injEq] at h
      obtain ⟨rfl, rfl⟩ := h
      have hp2 : sep <+: (c :: cs) := List.isPrefixOf_iff_prefix.mp hp
      obtain ⟨t, ht⟩ := hp2
      rw [← ht]
      simp
    · split at h
      · rename_i a2 b2 h2
        simp only [Option.some.injEq, Prod.mk.injEq] at h
        obtain ⟨rfl, rfl⟩ := h
        have := Cut_eq_some h2
        rw [this]
        simp
      · simp at h

theorem Cut_eq_none {sep : Str} : ∀ {s : Str}, Cut sep s = none → ∀ a b : Str, s ≠ a ++ sep ++ b
  | [], h, a, b, e => by
    simp only [Cut] at h
    split at h
    · simp at h
    · rename_i hp
      have e2 := e.symm
      simp only [List.append_eq_nil] at e2
      rw [e2.1.2] at hp
      simp [List.isPrefixOf] at hp
  | c :: cs, h, a, b, e => by
    simp only [Cut] at h
    split at h
    · simp at h
    · rename_i hp
      split at h
      · simp at h
      · rename_i h2
        cases a with
        | nil =>
          apply hp
          apply List.isPrefixOf_iff_prefix.mpr
          exact ⟨b, by simpa using e.symm⟩
        | cons x xs =>
          simp only [List.cons_append, List.cons.injEq] at e
          exact Cut_eq_none h2 xs b (by simpa using e.2)

theorem Cut_minimal {sep : Str} : ∀ {s a b : Str}, Cut sep s = some (a, b) →
    ∀ a2 b2 : Str, s = a2 ++ sep ++ b2 → a.length ≤ a2.length
  | [], a, b, h, a2, b2, _ => by
    have := Cut_eq_some h
    have e2 := this.symm
    simp only [List.append_eq_nil] at e2
    simp [e2.1.1]
  | c :: cs, a, b, h, a2, b2, e => by
    simp only [Cut] at h
    split at h
    · simp only [Option.some.injEq, Prod.mk.injEq] at h
      simp [← h.1]
    · rename_i hp
      split at h
      · rename_i a3 b3 h3
        simp only [Option.some.injEq, Prod.mk.injEq] at h
        obtain ⟨rfl, rfl⟩ := h
        cases a2 with
        | nil =>
          exfalso
          apply hp
          apply List.isPrefixOf_iff_prefix.mpr
          exact ⟨b2, by simpa using e.symm⟩
        | cons x xs =>
          simp only [List.cons_append, List.cons.injEq] at e
          have := Cut_minimal h3 xs b2 (by simpa using e.2)
          simp only [List.length_cons]
          omega
      · simp at h

theorem Cut_of_FirstSplit {sep s a b : Str} (h : FirstSplit sep s a b) :
    Cut sep s = some (a, b) := by
  obtain ⟨he, hmin⟩ := h
  cases hc : Cut sep s with
  | none => exact absurd he (Cut_eq_none hc a b)
  | some p =>
    obtain ⟨a0, b0⟩ := p
    have e0 := Cut_eq_some hc
    have h1 := Cut_minimal hc a b he
    have h2 := hmin a0 b0 e0
    have hl : a0.length = a.length := by omega
    have e : a0 ++ (sep ++ b0) = a ++ (sep ++ b) := by
      rw [← List.append_assoc, ← List.append_assoc, ← e0, ← he]
    obtain ⟨r1, r2⟩ := List.append_inj e hl
    have r3 := List.append_cancel_left r2
    rw [r1, r3]

theorem FirstSplit_of_Cut {sep s a b : Str} (h : Cut sep s = some (a, b)) :
    FirstSplit sep s a b :=
  ⟨Cut_eq_some h, Cut_minimal h⟩

theorem SplitN_two_of_Cut_some {sep s a b : Str} (h : Cut sep s = some (a, b)) :
    SplitN s sep 2 = [a, b] := by
  simp [SplitN, h]

theorem SplitN_two_of_Cut_none {sep s : Str} (h : Cut sep s = none) :
    SplitN s sep 2 = [s] := by
  simp [SplitN, h]

theorem parseSubject_of_Cut_some {subject a b : Str} (h : Cut subjectSep subject = some (a, b)) :
    parseSubject subject =
      if TrimSpace a = [] ∨ TrimSpace b = [] then ([], [], some errSubjectEmpty)
      else (TrimSpace a, TrimSpace b, none) := by
  simp [parseSubject, SplitN_two_of_Cut_some h]

theorem parseSubject_of_Cut_none {subject : Str} (h : Cut subjectSep subject = none) :
    parseSubject subject = ([], [], some errSubjectFormat) := by
  simp [parseSubject, SplitN_two_of_Cut_none h]

/-! ## Facts about the store queries and the routing engine -/

theorem firstLog_error_of_absent (env : Env) (st : Store) (messageID : Str) (accountID : Nat)
    (h : ∀ l ∈ st.logs, ¬ (l.MessageID = messageID ∧ l.AccountID = accountID)) :
    ∃ e, firstLog env st messageID accountID = Except.error e := by
  unfold firstLog
  cases env.findLogErr with
  | some e => exact ⟨e, rfl⟩
  | none =>
    have hf : st.logs.find? (fun l => decide (l.MessageID = messageID ∧ l.AccountID = accountID))
        = none := by
      rw [List.find?_eq_none]
      intro l hl
      simpa using h l hl
    simp only [hf]
    exact ⟨errRecordNotFound, rfl⟩

theorem firstLog_ok_of_present (env : Env) (st : Store) (messageID : Str) (accountID : Nat)
    (henv : env.findLogErr = none)
    (h : ∃ l ∈ st.logs, l.MessageID = messageID ∧ l.AccountID = accountID) :
    ∃ l, firstLog env st messageID accountID = Except.ok l := by
  unfold firstLog
  rw [henv]
  cases hf : st.logs.find? (fun l => decide (l.MessageID = messageID ∧ l.AccountID = accountID)) with
  | some l => exact ⟨l, rfl⟩
  | none =>
    exfalso
    rw [List.find?_eq_none] at hf
    obtain ⟨l, hl, hp⟩ := h
    have := hf l hl
    simp [hp] at this

theorem firstLog_error_absent (env : Env) (st : Store) (messageID : Str) (accountID : Nat)
    (henv : env.findLogErr = none) (e : Str)
    (h : firstLog env st messageID accountID = Except.error e) :
    ∀ l ∈ st.logs, ¬ (l.MessageID = messageID ∧ l.AccountID = accountID) := by
  intro l hl hp
  obtain ⟨l2, h2⟩ := firstLog_ok_of_present env st messageID accountID henv ⟨l, hl, hp⟩
  rw [h2] at h
  cases h

theorem firstTarget_error_of_absent (env : Env) (st : Store) (name : Str)
    (h : ∀ t ∈ st.targets, t.Name ≠ name) :
    ∃ e, firstTarget env st name = Except.error e := by
  unfold firstTarget
  cases env.findTargetErr with
  | some e => exact ⟨e, rfl⟩
  | none =>
    have hf : st.targets.find? (fun t => decide (t.Name = name ∧ t.DeletedAt = none)) = none := by
      rw [List.find?_eq_none]
      intro t ht
      simp [h t ht]
    simp only [hf]
    exact ⟨errRecordNotFound, rfl⟩

theorem ProcessEmail_of_existing (env : Env) (st : Store) (email : Email) (accountID : Nat)
    (l : MailLog) (h : firstLog env st email.MessageID accountID = Except.ok l) :
    ProcessEmail env st email accountID =
      ⟨st, [Event.findLog email.MessageID accountID], none⟩ := by
  simp [ProcessEmail, h]

theorem ProcessEmail_parse_failed (env : Env) (st : Store) (email : Email) (accountID : Nat)
    (e perr : Str) (h : firstLog env st email.MessageID accountID = Except.error e)
    (hp : (parseSubject email.Subject).2.2 = some perr) :
    ProcessEmail env st email accountID =
      (logFailedEmail env st email accountID (msgParseFailed ++ perr)).after
        [Event.findLog email.MessageID accountID] := by
  rcases hq : parseSubject email.Subject with ⟨k, n, pe⟩
  rw [hq] at hp
  simp only at hp
  subst hp
  simp [ProcessEmail, h, hq]

theorem ProcessEmail_target_missing (env : Env) (st : Store) (email : Email) (accountID : Nat)
    (e k n te : Str) (h : firstLog env st email.MessageID accountID = Except.error e)
    (hp : parseSubject email.Subject = (k, n, none))
    (ht : firstTarget env st n = Except.error te) :
    ProcessEmail env st email accountID =
      (logFailedEmail env st email accountID (msgTargetNotFound ++ n)).after
        [Event.findLog email.MessageID accountID, Event.findTarget n] := by
  simp [ProcessEmail, h, hp, ht]

theorem ProcessEmail_send_failed (env : Env) (st : Store) (email : Email) (accountID : Nat)
    (e k n se : Str) (t : ForwardTarget)
    (h : firstLog env st email.MessageID accountID = Except.error e)
    (hp : parseSubject email.Subject = (k, n, none))
    (ht : firstTarget env st n = Except.ok t)
    (hs : env.sendEmail email t.Email accountID = some se) :
    ProcessEmail env st email accountID =
      (logFailedEmail env st email accountID (msgForwardFailed ++ se)).after
        [Event.findLog email.MessageID accountID, Event.findTarget n,
         Event.sendEmail email t.Email accountID] := by
  simp [ProcessEmail, h, hp, ht, hs]

theorem ProcessEmail_send_ok (env : Env) (st : Store) (email : Email) (accountID : Nat)
    (e k n : Str) (t : ForwardTarget)
    (h : firstLog env st email.MessageID accountID = Except.error e)
    (hp : parseSubject email.Subject = (k, n, none))
    (ht : firstTarget env st n = Except.ok t)
    (hs : env.sendEmail email t.Email accountID = none) :
    ProcessEmail env st email accountID =
      (logSuccessfulEmail env st email accountID t.Email).after
        [Event.findLog email.MessageID accountID, Event.findTarget n,
         Event.sendEmail email t.Email accountID] := by
  simp [ProcessEmail, h, hp, ht, hs]

theorem createLog_events (env : Env) (st : Store) (l : MailLog) :
    (createLog env st l).events = [Event.createLog l] := by
  unfold createLog
  cases env.createErr <;> rfl

theorem createLog_logs (env : Env) (st : Store) (l : MailLog) (h : env.createErr = none) :
    (createLog env st l).store.logs = st.logs ++ [l] := by
  unfold createLog
  rw [h]

theorem createLog_err (env : Env) (st : Store) (l : MailLog) :
    (createLog env st l).err = env.createErr := by
  unfold createLog
  cases env.createErr <;> rfl

/-- A call that finds no outcome for its message appends one outcome for it,
when the store accepts the append. -/
theorem ProcessEmail_fresh_logs (env : Env) (st : Store) (email : Email) (accountID : Nat)
    (e : Str) (h : firstLog env st email.MessageID accountID = Except.error e)
    (hc : env.createErr = none) :
    ∃ l : MailLog, (ProcessEmail env st email accountID).store.logs = st.logs ++ [l] ∧
      l.MessageID = email.MessageID ∧ l.AccountID = accountID := by
  rcases hq : parseSubject email.Subject with ⟨k, n, pe⟩
  cases pe with
  | some perr =>
    rw [ProcessEmail_parse_failed env st email accountID e perr h (by rw [hq])]
    exact ⟨_, createLog_logs env st _ hc, rfl, rfl⟩
  | none =>
    cases ht : firstTarget env st n with
    | error te =>
      rw [ProcessEmail_target_missing env st email accountID e k n te h hq ht]
      exact ⟨_, createLog_logs env st _ hc, rfl, rfl⟩
    | ok t =>
      cases hs : env.sendEmail email t.Email accountID with
      | some se =>
        rw [ProcessEmail_send_failed env st email accountID e k n se t h hq ht hs]
        exact ⟨_, createLog_logs env st _ hc, rfl, rfl⟩
      | none =>
        rw [ProcessEmail_send_ok env st email accountID e k n t h hq ht hs]
        exact ⟨_, createLog_logs env st _ hc, rfl, rfl⟩

theorem firstLog_ok_mem (env : Env) (st : Store) (messageID : Str) (accountID : Nat)
    (l : MailLog) (h : firstLog env st messageID accountID = Except.ok l) :
    l ∈ st.logs ∧ l.MessageID = messageID ∧ l.AccountID = accountID := by
  unfold firstLog at h
  cases he : env.findLogErr with
  | some e => rw [he] at h; cases h
  | none =>
    rw [he] at h
    cases hf : st.logs.find? (fun l => decide (l.MessageID = messageID ∧ l.AccountID = accountID)) with
    | none => rw [hf] at h; cases h
    | some l2 =>
      rw [hf] at h
      simp only [Except.ok.injEq] at h
      subst h
      have h1 := List.mem_of_find?_eq_some hf
      have h2 := List.find?_some hf
      simp only [decide_eq_true_eq] at h2
      exact ⟨h1, h2⟩

theorem outcomesFor_nil_of_absent (st : Store) (accountID : Nat) (messageID : Str)
    (h : ∀ l ∈ st.logs, ¬ (l.MessageID = messageID ∧ l.AccountID = accountID)) :
    outcomesFor st accountID messageID = [] := by
  unfold outcomesFor
  rw [List.filter_eq_nil_iff]
  intro l hl
  simpa using h l hl

theorem outcomesFor_pos_of_mem (st : Store) (accountID : Nat) (messageID : Str) (l : MailLog)
    (hl : l ∈ st.logs) (hp : l.MessageID = messageID ∧ l.AccountID = accountID) :
    0 < (outcomesFor st accountID messageID).length := by
  apply List.length_pos_of_mem (a := l)
  unfold outcomesFor
  rw [List.mem_filter]
  exact ⟨hl, by simpa using hp⟩

theorem SplitN_length_gt_two {s sep : Str} {n : Nat} (h : 2 < (SplitN s sep n).length) :
    ∃ a b : Str, Cut sep s = some (a, b) ∧ ∃ c d : Str, Cut sep b = some (c, d) := by
  match n with
  | 0 => simp [SplitN] at h
  | 1 => simp [SplitN] at h
  | 2 =>
    cases hc : Cut sep s with
    | none => simp [SplitN, hc] at h
    | some p => simp [SplitN, hc] at h
  | k + 3 =>
    cases hc : Cut sep s with
    | none => simp [SplitN, hc] at h
    | some p =>
      obtain ⟨a, b⟩ := p
      cases hd : Cut sep b with
      | none => simp [SplitN, hc, hd] at h
      | some q => exact ⟨a, b, rfl, q.1, q.2, hd⟩

theorem mem_dropWhile_of_not {p : Char → Bool} {c : Char} :
    ∀ {l : Str}, c ∈ l → p c = false → c ∈ l.dropWhile p
  | [], h, _ => by cases h
  | x :: xs, h, hc => by
    rw [List.dropWhile_cons]
    split
    · rename_i hx
      rcases List.mem_cons.mp h with rfl | h2
      · rw [hc] at hx; cases hx
      · exact mem_dropWhile_of_not h2 hc
    · exact h

theorem TrimSpace_ne_nil {s : Str} {c : Char} (hc : c ∈ s) (hs : isSpace c = false) :
    TrimSpace s ≠ [] := by
  have h1 : c ∈ s.dropWhile isSpace := mem_dropWhile_of_not hc hs
  have h2 : c ∈ (s.dropWhile isSpace).reverse := List.mem_reverse.mpr h1
  have h3 : c ∈ ((s.dropWhile isSpace).reverse).dropWhile isSpace := mem_dropWhile_of_not h2 hs
  have h4 : c ∈ TrimSpace s := List.mem_reverse.mpr h3
  exact List.ne_nil_of_mem h4

theorem Contains_iff_infix (s t : Str) : Contains s t = true ↔ t <:+: s := by
  unfold Contains
  constructor
  · intro h
    cases hc : Cut t s with
    | none => rw [hc] at h; cases h
    | some p => exact ⟨p.1, p.2, (Cut_eq_some hc).symm⟩
  · rintro ⟨a, b, hab⟩
    cases hc : Cut t s with
    | none => exact absurd hab.symm (Cut_eq_none hc a b)
    | some p => rfl

theorem Cut_append_self (sep r : Str) : Cut sep (sep ++ r) = some ([], r) := by
  apply Cut_of_FirstSplit
  exact ⟨by simp, fun _ _ _ => by simp⟩

theorem ReplaceFirst_of_prefix (old new r : Str) :
    ReplaceFirst (old ++ r) old new = new ++ r := by
  simp [ReplaceFirst, Cut_append_self]

/-! ## Facts about the retry loops of `reconnect` -/

theorem dialAttempts_append (a b : List NetEvent) :
    dialAttempts (a ++ b) = dialAttempts a ++ dialAttempts b := by
  induction a with
  | nil => rfl
  | cons e es ih => cases e <;> simp [dialAttempts, ih]

theorem loginLoop_no_dial (net : Imap) (imapClient : Option Session) (u pw : Str) (ri : Int) :
    ∀ (k i : Nat) (e0 : GoError), dialAttempts (loginLoop net imapClient u pw ri k i e0).2.1 = []
  | 0, _, _ => rfl
  | k + 1, i, e0 => by
    cases imapClient with
    | none => rfl
    | some s =>
      simp only [loginLoop]
      cases net.login s u pw i with
      | none => rfl
      | some e =>
        simp only [dialAttempts]
        exact loginLoop_no_dial net (some s) u pw ri k (i + 1) (some e)

theorem connectLoop_dials_le (net : Imap) (server : Str) (ri : Int) :
    ∀ (k i : Nat) (c0 : Option Session) (e0 : GoError),
      (dialAttempts (connectLoop net server ri k i c0 e0).2.2).length ≤ k
  | 0, _, _, _ => by simp [connectLoop, dialAttempts]
  | k + 1, i, c0, e0 => by
    simp only [connectLoop]
    cases net.dialTLS server i with
    | ok s => simp [dialAttempts]
    | error e =>
      have ih := connectLoop_dials_le net server ri k (i + 1) none (some e)
      simp only [dialAttempts, List.length_cons]
      omega

theorem connectLoop_all_fail (net : Imap) (server : Str) (ri : Int) :
    ∀ (k i : Nat) (c0 : Option Session) (e0 : GoError),
      (∀ j, j < k + 1 → ∃ e, net.dialTLS server (i + j) = Except.error e) →
      (connectLoop net server ri (k + 1) i c0 e0).1 = none ∧
      (∃ e, (connectLoop net server ri (k + 1) i c0 e0).2.1 = some e) ∧
      (dialAttempts (connectLoop net server ri (k + 1) i c0 e0).2.2).length = k + 1
  | 0, i, c0, e0, h => by
    obtain ⟨e, he⟩ := h 0 (by omega)
    simp only [Nat.add_zero] at he
    simp [connectLoop, he, dialAttempts]
  | k + 1, i, c0, e0, h => by
    obtain ⟨e, he⟩ := h 0 (by omega)
    simp only [Nat.add_zero] at he
    have ih := connectLoop_all_fail net server ri k (i + 1) none (some e)
      (fun j hj => by
        have := h (j + 1) (by omega)
        rwa [show i + (j + 1) = i + 1 + j by omega] at this)
    rw [connectLoop, he]
    simp only [dialAttempts, List.length_cons]
    exact ⟨ih.1, ih.2.1, by rw [ih.2.2]⟩

theorem connectLoop_first_success (net : Imap) (server : Str) (ri : Int) (s : Session) :
    ∀ (j k i : Nat) (c0 : Option Session) (e0 : GoError), j < k →
      (∀ j2, j2 < j → ∃ e, net.dialTLS server (i + j2) = Except.error e) →
      net.dialTLS server (i + j) = Except.ok s →
      (connectLoop net server ri k i c0 e0).1 = some s ∧
      (connectLoop net server ri k i c0 e0).2.1 = none ∧
      (dialAttempts (connectLoop net server ri k i c0 e0).2.2).length = j + 1
  | _, 0, _, _, _, hj, _, _ => by omega
  | 0, k + 1, i, c0, e0, _, _, hok => by
    simp only [Nat.add_zero] at hok
    simp [connectLoop, hok, dialAttempts]
  | j + 1, k + 1, i, c0, e0, hj, hfail, hok => by
    obtain ⟨e, he⟩ := hfail 0 (by omega)
    simp only [Nat.add_zero] at he
    have ih := connectLoop_first_success net server ri s j k (i + 1) none (some e) (by omega)
      (fun j2 hj2 => by
        have := hfail (j2 + 1) (by omega)
        rwa [show i + (j2 + 1) = i + 1 + j2 by omega] at this)
      (by rwa [show i + (j + 1) = i + 1 + j by omega] at hok)
    rw [connectLoop, he]
    simp only [dialAttempts, List.length_cons]
    exact ⟨ih.1, ih.2.1, by rw [ih.2.2]⟩

theorem connectLoop_err_all_fail (net : Imap) (server : Str) (ri : Int) :
    ∀ (k i : Nat) (c0 : Option Session) (e0 : GoError),
      (connectLoop net server ri (k + 1) i c0 e0).2.1 ≠ none →
      ∀ j, j < k + 1 → ∃ e, net.dialTLS server (i + j) = Except.error e
  | 0, i, c0, e0, h, j, hj => by
    have hj0 : j = 0 := by omega
    subst hj0
    cases hd : net.dialTLS server i with
    | ok s => simp [connectLoop, hd] at h
    | error e => exact ⟨e, by simpa using hd⟩
  | k + 1, i, c0, e0, h, j, hj => by
    cases hd : net.dialTLS server i with
    | ok s => rw [connectLoop, hd] at h; simp at h
    | error e =>
      rw [connectLoop, hd] at h
      cases j with
      | zero => exact ⟨e, by simpa using hd⟩
      | succ j2 =>
        have := connectLoop_err_all_fail net server ri k (i + 1) none (some e) h j2 (by omega)
        rwa [show i + 1 + j2 = i + (j2 + 1) by omega] at this

theorem msgLoginFailed_ne_connect (a b : Str) : msgLoginFailed ++ a ≠ msgConnectFailed ++ b := by
  intro h
  have := congrArg List.head? h
  simp [msgLoginFailed, msgConnectFailed] at this

theorem reconnect_dialAttempts (net : Imap) (c : MailClient) :
    dialAttempts (reconnect net c).events =
      dialAttempts (connectLoop net (serverAddr c.config.Server) (retryInterval c)
        (maxRetryCount c).toNat 0 none none).2.2 := by
  have hclose : dialAttempts (match c.client with
      | some s => [NetEvent.logout s]
      | none => []) = [] := by
    cases c.client <;> rfl
  unfold reconnect
  simp only [maxRetryCount, retryInterval]
  split
  · simp [dialAttempts_append, hclose]
  · split
    · simp [dialAttempts_append, hclose, loginLoop_no_dial]
    · split
      · split
        · simp [dialAttempts_append, hclose, loginLoop_no_dial]
        · simp [dialAttempts_append, hclose, loginLoop_no_dial, dialAttempts]
      · simp [dialAttempts_append, hclose, loginLoop_no_dial]

theorem reconnect_IsConnectError (net : Imap) (c : MailClient) :
    IsConnectError (reconnect net c).err ↔
      (connectLoop net (serverAddr c.config.Server) (retryInterval c)
        (maxRetryCount c).toNat 0 none none).2.1 ≠ none := by
  unfold reconnect IsConnectError
  simp only [maxRetryCount, retryInterval]
  split
  · rename_i err herr
    simp [herr]
  · rename_i herr
    simp only [herr, ne_eq, not_true_eq_false, iff_false]
    split
    · simp
    · split
      · split
        · simp
        · rintro ⟨d, hd⟩
          simp only [Option.some.injEq] at hd
          exact msgLoginFailed_ne_connect _ _ hd
      · simp

theorem firstLog_error_of_fault (env : Env) (st : Store) (messageID : Str) (accountID : Nat)
    (e : Str) (h : env.findLogErr = some e) :
    firstLog env st messageID accountID = Except.error e := by
  simp [firstLog, h]

theorem firstTarget_error_of_fault (env : Env) (st : Store) (name e : Str)
    (h : env.findTargetErr = some e) : firstTarget env st name = Except.error e := by
  simp [firstTarget, h]

/-- A call whose duplicate lookup returns an error hands exactly one outcome to
the store and returns the result of that append. -/
theorem ProcessEmail_fresh_summary (env : Env) (st : Store) (email : Email) (accountID : Nat)
    (e : Str) (h : firstLog env st email.MessageID accountID = Except.error e) :
    (∃ out : MailLog, appended (ProcessEmail env st email accountID).events = [out]) ∧
      (ProcessEmail env st email accountID).err = env.createErr := by
  rcases hq : parseSubject email.Subject with ⟨k, n, pe⟩
  cases pe with
  | some perr =>
    rw [ProcessEmail_parse_failed env st email accountID e perr h (by rw [hq])]
    exact ⟨⟨failedLog email accountID (msgParseFailed ++ perr),
        by simp [Result.after, logFailedEmail, createLog_events, appended]⟩,
      by simp [Result.after, logFailedEmail, createLog_err]⟩
  | none =>
    cases ht : firstTarget env st n with
    | error te =>
      rw [ProcessEmail_target_missing env st email accountID e k n te h hq ht]
      exact ⟨⟨failedLog email accountID (msgTargetNotFound ++ n),
        by simp [Result.after, logFailedEmail, createLog_events, appended]⟩,
        by simp [Result.after, logFailedEmail, createLog_err]⟩
    | ok t =>
      cases hs : env.sendEmail email t.Email accountID with
      | some se =>
        rw [ProcessEmail_send_failed env st email accountID e k n se t h hq ht hs]
        exact ⟨⟨failedLog email accountID (msgForwardFailed ++ se),
        by simp [Result.after, logFailedEmail, createLog_events, appended]⟩,
          by simp [Result.after, logFailedEmail, createLog_err]⟩
      | none =>
        rw [ProcessEmail_send_ok env st email accountID e k n t h hq ht hs]
        exact ⟨⟨forwardedLog env.now email accountID t.Email,
          by simp [Result.after, logSuccessfulEmail, createLog_events, appended]⟩,
          by simp [Result.after, logSuccessfulEmail, createLog_err]⟩

/-! ## Facts about the outbound content -/

theorem toBytes_append (a b : Str) : toBytes (a ++ b) = toBytes a ++ toBytes b := by
  simp [toBytes]

theorem foldl_toBytes {α : Type} (f : α → Str) :
    ∀ (l : List α) (init : Bytes),
      l.foldl (fun body x => body ++ toBytes (f x)) init = init ++ toBytes (l.flatMap f)
  | [], init => by simp [toBytes]
  | x :: xs, init => by
    rw [List.foldl_cons, foldl_toBytes f xs, List.flatMap_cons, toBytes_append,
      List.append_assoc]

theorem sendMailWithFallback_attempts (net : Smtp) (smtpServer smtpPort toEmail : Str)
    (body : Bytes) :
    (sendMailWithFallback net smtpServer smtpPort toEmail body).1 ≠ [] ∧
    ∀ a ∈ (sendMailWithFallback net smtpServer smtpPort toEmail body).1,
      a.smtpServer = smtpServer ∧ a.toEmail = toEmail ∧ a.body = body := by
  unfold sendMailWithFallback
  generalize "587".toList = p587
  generalize "465".toList = p465
  generalize "25".toList = p25
  by_cases hp : smtpPort = p587
  · subst hp
    cases h1 : net.sendMailWithSTARTTLS smtpServer smtpPort toEmail body <;>
    cases h2 : net.sendMailWithSSL smtpServer p465 toEmail body <;>
    cases h3 : net.sendMailPlain smtpServer p25 toEmail body <;>
    simp [h1, h2, h3]
  · cases h2 : net.sendMailWithSSL smtpServer p465 toEmail body <;>
    cases h3 : net.sendMailPlain smtpServer p25 toEmail body <;>
    simp [hp, h2, h3]

theorem SendEmail_attempts (net : Smtp) (order : List (Str × Str) → List (Str × Str))
    (c : MailClient) (email : Email) (toEmail : Str) :
    (SendEmail net order c email toEmail).1 =
      (sendMailWithFallback net (getSMTPServer c.config) (getSMTPPort c.config) toEmail
        (toBytes ((order (sendHeaders c email toEmail)).flatMap (fun kv => headerLine kv.1 kv.2)
          ++ "\r\n".toList ++ (if email.Body = [] then placeholderBody else email.Body)))).1 := by
  have hbody : (if email.Body ≠ [] then
        ((order (sendHeaders c email toEmail)).foldl
          (fun body kv => body ++ toBytes (headerLine kv.1 kv.2)) [] ++ toBytes "\r\n".toList)
          ++ toBytes email.Body
      else
        ((order (sendHeaders c email toEmail)).foldl
          (fun body kv => body ++ toBytes (headerLine kv.1 kv.2)) [] ++ toBytes "\r\n".toList)
          ++ toBytes placeholderBody) =
      toBytes ((order (sendHeaders c email toEmail)).flatMap (fun kv => headerLine kv.1 kv.2)
        ++ "\r\n".toList ++ (if email.Body = [] then placeholderBody else email.Body)) := by
    rw [foldl_toBytes (fun kv : Str × Str => headerLine kv.1 kv.2)]
    by_cases hb : email.Body = []
    · simp only [hb, ne_eq, not_true_eq_false, if_false, if_true, toBytes_append,
        List.nil_append]
    · simp only [hb, ne_eq, not_false_eq_true, if_true, if_false, toBytes_append,
        List.nil_append]
  unfold SendEmail
  simp only [hbody]
  split <;> simp_all

theorem SendRawEmail_attempts (net : Smtp) (c : MailClient) (rawData : Bytes) (toEmail : Str) :
    (SendRawEmail net c rawData toEmail).1 =
      (sendMailWithFallback net (getSMTPServer c.config) (getSMTPPort c.config) toEmail
        (addForwardHeaders c rawData toEmail)).1 := by
  unfold SendRawEmail
  simp only
  split <;> simp_all

theorem fetchRequests_append (a b : List NetEvent) :
    fetchRequests (a ++ b) = fetchRequests a ++ fetchRequests b := by
  induction a with
  | nil => rfl
  | cons e es ih => cases e <;> simp [fetchRequests, ih]

theorem loginLoop_no_fetch (net : Imap) (imapClient : Option Session) (u pw : Str) (ri : Int) :
    ∀ (k i : Nat) (e0 : GoError), fetchRequests (loginLoop net imapClient u pw ri k i e0).2.1 = []
  | 0, _, _ => rfl
  | k + 1, i, e0 => by
    cases imapClient with
    | none => rfl
    | some s =>
      simp only [loginLoop]
      cases net.login s u pw i with
      | none => rfl
      | some e =>
        simp only [fetchRequests]
        exact loginLoop_no_fetch net (some s) u pw ri k (i + 1) (some e)

theorem connectLoop_no_fetch (net : Imap) (server : Str) (ri : Int) :
    ∀ (k i : Nat) (c0 : Option Session) (e0 : GoError),
      fetchRequests (connectLoop net server ri k i c0 e0).2.2 = []
  | 0, _, _, _ => rfl
  | k + 1, i, c0, e0 => by
    simp only [connectLoop]
    cases net.dialTLS server i with
    | ok s => rfl
    | error e =>
      simp only [fetchRequests]
      exact connectLoop_no_fetch net server ri k (i + 1) none (some e)

theorem reconnect_no_fetch (net : Imap) (c : MailClient) :
    fetchRequests (reconnect net c).events = [] := by
  have hclose : fetchRequests (match c.client with
      | some s => [NetEvent.logout s]
      | none => []) = [] := by
    cases c.client <;> rfl
  unfold reconnect
  simp only [maxRetryCount, retryInterval]
  split
  · simp [fetchRequests_append, hclose, connectLoop_no_fetch]
  · split
    · simp [fetchRequests_append, hclose, connectLoop_no_fetch, loginLoop_no_fetch]
    · split
      · split
        · simp [fetchRequests_append, hclose, connectLoop_no_fetch, loginLoop_no_fetch]
        · simp [fetchRequests_append, hclose, connectLoop_no_fetch, loginLoop_no_fetch,
            fetchRequests]
      · simp [fetchRequests_append, hclose, connectLoop_no_fetch, loginLoop_no_fetch]

theorem ensureConnection_no_fetch (net : Imap) (c : MailClient) :
    fetchRequests (ensureConnection net c).events = [] := by
  unfold ensureConnection
  cases hc : c.client with
  | none => exact reconnect_no_fetch net c
  | some s =>
    simp only
    cases net.noop s with
    | none => rfl
    | some e =>
      simp only [ConnResult.after]
      rw [fetchRequests_append, reconnect_no_fetch]
      rfl

/-! ## Facts about the scheduler -/

theorem runPool_cons (pool : List PollTask) (i : Nat) (sched : List Nat) (st : Store) :
    runPool pool (i :: sched) st =
      match pool[i]? with
      | some (PollTask.step write next) => runPool (pool.set i (next st)) sched (write st)
      | some PollTask.crash => st
      | _ => runPool pool sched st := by
  rw [runPool]

theorem runPool_insert_done : ∀ (sched : List Nat) (l1 l2 : List PollTask) (st : Store),
    runPool (l1 ++ PollTask.done :: l2) sched st =
      runPool (l1 ++ l2) (dropIndex l1.length sched) st
  | [], l1, l2, st => by simp [runPool, dropIndex]
  | i :: sched, l1, l2, st => by
    rcases Nat.lt_trichotomy i l1.length with hlt | heq | hgt
    · have hd : dropIndex l1.length (i :: sched) = i :: dropIndex l1.length sched := by
        simp [dropIndex, hlt]
      rw [hd, runPool_cons, runPool_cons, List.getElem?_append_left hlt,
        List.getElem?_append_left hlt]
      cases hg : l1[i]? with
      | none => exact runPool_insert_done sched l1 l2 st
      | some t =>
        cases t with
        | done => exact runPool_insert_done sched l1 l2 st
        | crash => rfl
        | step w n =>
          simp only
          rw [List.set_append_left _ _ hlt, List.set_append_left _ _ hlt]
          have := runPool_insert_done sched (l1.set i (n st)) l2 (w st)
          rwa [List.length_set] at this
    · subst heq
      have hd : dropIndex l1.length (l1.length :: sched) = dropIndex l1.length sched := by
        simp [dropIndex]
      have hg : (l1 ++ PollTask.done :: l2)[l1.length]? = some PollTask.done := by
        rw [List.getElem?_append_right (Nat.le_refl _)]
        simp
      rw [hd, runPool_cons, hg]
      exact runPool_insert_done sched l1 l2 st
    · obtain ⟨m, rfl⟩ : ∃ m, i = l1.length + 1 + m := ⟨i - l1.length - 1, by omega⟩
      have hd : dropIndex l1.length ((l1.length + 1 + m) :: sched)
          = (l1.length + m) :: dropIndex l1.length sched := by
        have h1 : ¬ l1.length + 1 + m < l1.length := by omega
        have h2 : ¬ l1.length + 1 + m = l1.length := by omega
        have h3 : l1.length + 1 + m - 1 = l1.length + m := by omega
        simp only [dropIndex, List.filterMap_cons, if_neg h1, if_neg h2, h3]
      have hg1 : (l1 ++ PollTask.done :: l2)[l1.length + 1 + m]? = l2[m]? := by
        rw [List.getElem?_append_right (by omega)]
        have : l1.length + 1 + m - l1.length = m + 1 := by omega
        rw [this]
        simp
      have hg2 : (l1 ++ l2)[l1.length + m]? = l2[m]? := by
        rw [List.getElem?_append_right (by omega)]
        simp
      rw [hd, runPool_cons, runPool_cons, hg1, hg2]
      cases hg : l2[m]? with
      | none => exact runPool_insert_done sched l1 l2 st
      | some t =>
        cases t with
        | done => exact runPool_insert_done sched l1 l2 st
        | crash => rfl
        | step w n =>
          simp only
          have hs1 : (l1 ++ PollTask.done :: l2).set (l1.length + 1 + m) (n st)
              = l1 ++ PollTask.done :: l2.set m (n st) := by
            rw [List.set_append_right _ _ (by omega)]
            have : l1.length + 1 + m - l1.length = m + 1 := by omega
            rw [this]
            simp
          have hs2 : (l1 ++ l2).set (l1.length + m) (n st) = l1 ++ l2.set m (n st) := by
            rw [List.set_append_right _ _ (by omega)]
            simp
          rw [hs1, hs2]
          exact runPool_insert_done sched l1 (l2.set m (n st)) (w st)

theorem dropIndex_liftIndex (j : Nat) (sched : List Nat) :
    dropIndex j (liftIndex j sched) = sched := by
  induction sched with
  | nil => rfl
  | cons i rest ih =>
    unfold dropIndex liftIndex at *
    by_cases h : i < j
    · simp only [List.map_cons, List.filterMap_cons, if_pos h]
      rw [ih]
    · have h1 : ¬ i + 1 < j := by omega
      have h2 : ¬ i + 1 = j := by omega
      simp only [List.map_cons, List.filterMap_cons, if_neg h, if_neg h1, if_neg h2]
      rw [ih]
      simp

theorem runPool_insert_done_lift (sched : List Nat) (l1 l2 : List PollTask) (st : Store) :
    runPool (l1 ++ l2) sched st =
      runPool (l1 ++ PollTask.done :: l2) (liftIndex l1.length sched) st := by
  rw [runPool_insert_done, dropIndex_liftIndex]

theorem ProcessEmailTask_run (env : Env) (email : Email) (accountID : Nat) (k : PollTask)
    (st : Store) :
    (ProcessEmailTask env email accountID k).run st =
      k.run (ProcessEmail env st email accountID).store := by
  unfold ProcessEmailTask ProcessEmail
  simp only [PollTask.run, id]
  cases firstLog env st email.MessageID accountID with
  | ok l => rfl
  | error e =>
    simp only
    rcases parseSubject email.Subject with ⟨kw, n, pe⟩
    cases pe with
    | some perr => simp only [PollTask.run, Result.after]
    | none =>
      simp only [PollTask.run, id]
      cases firstTarget env st n with
      | error te => simp only [PollTask.run, Result.after]
      | ok t =>
        simp only
        cases env.sendEmail email t.Email accountID with
        | some se => simp only [PollTask.run, Result.after]
        | none => simp only [PollTask.run, Result.after]

theorem reconnect_stopChanClosed (net : Imap) (c : MailClient) :
    (reconnect net c).client.stopChanClosed = c.stopChanClosed := by
  unfold reconnect
  simp only [maxRetryCount, retryInterval]
  split
  · rfl
  · split
    · rfl
    · split
      · split <;> rfl
      · rfl

theorem ensureConnection_stopChanClosed (net : Imap) (c : MailClient) :
    (ensureConnection net c).client.stopChanClosed = c.stopChanClosed := by
  unfold ensureConnection
  cases c.client with
  | none => exact reconnect_stopChanClosed net c
  | some s =>
    simp only
    cases net.noop s with
    | none => rfl
    | some e => exact reconnect_stopChanClosed net c

theorem FetchNewEmails_client (net : Imap) (c : MailClient) :
    (FetchNewEmails net c).client = (ensureConnection net c).client := by
  unfold FetchNewEmails
  simp only
  split
  · rfl
  · split
    · rfl
    · split
      · rfl
      · split
        · rfl
        · split
          · rfl
          · split
            · rfl
            · split <;> rfl

theorem createMailClient_stopChanClosed (appConfig : Option AppConfig) (net : Imap)
    (account : MailAccount) :
    (createMailClient appConfig net account).client.stopChanClosed = false := by
  unfold createMailClient Init NewMailClient
  simp only
  split
  · rfl
  · split <;> rfl

theorem Stop_not_panicked (net : Imap) (c : MailClient) (h : c.stopChanClosed = false) :
    (Stop net c).panicked = false := by
  unfold Stop
  simp only [h]
  cases c.client <;> rfl

theorem pollAccount_of_fails (appConfig : Option AppConfig) (net : Imap) (account : MailAccount)
    (h : PollFails appConfig net account) :
    (pollAccount appConfig net account).emails = [] ∧
      (pollAccount appConfig net account).panicked = false := by
  have hstop : (Stop net (FetchNewEmails net
      (createMailClient appConfig net account).client).client).panicked = false := by
    apply Stop_not_panicked
    rw [FetchNewEmails_client, ensureConnection_stopChanClosed,
      createMailClient_stopChanClosed]
  unfold pollAccount
  simp only
  cases hc : (createMailClient appConfig net account).err with
  | some e => exact ⟨rfl, rfl⟩
  | none =>
    rcases h with h | ⟨hp, he⟩
    · exact absurd hc h
    · simp only [hp, Bool.false_eq_true, if_false]
      cases hf : (FetchNewEmails net (createMailClient appConfig net account).client).err with
      | none => exact absurd hf he
      | some e => exact ⟨rfl, hstop⟩

theorem pollAccountTask_of_fails (sch : SchedulerService) (account : MailAccount)
    (h : PollFails sch.config (sch.net account) account) :
    pollAccountTask sch account = PollTask.done := by
  obtain ⟨h1, h2⟩ := pollAccount_of_fails sch.config (sch.net account) account h
  unfold pollAccountTask
  simp only [h1, h2, Bool.false_eq_true, if_false]
  rfl

theorem loopStep_exited (s s2 : LoopState) (a : LoopAction) (hs : s.running = false)
    (h : loopStep s a = some s2) : s2.running = false ∧ s2.passes = s.passes := by
  cases a <;> simp [loopStep, hs] at h
  · obtain ⟨_, rfl⟩ := h
    exact ⟨rfl, rfl⟩
  · subst h
    exact ⟨rfl, rfl⟩

/-- Once `pollingLoop` has returned, no execution begins another pass. -/
theorem runLoop_exited : ∀ (acts : List LoopAction) (s s2 : LoopState), s.running = false →
    runLoop s acts = some s2 → s2.passes = s.passes
  | [], s, s2, _, h => by
    simp only [runLoop, Option.some.injEq] at h
    rw [h]
  | a :: rest, s, s2, hs, h => by
    simp only [runLoop] at h
    cases hstep : loopStep s a with
    | none => rw [hstep] at h; cases h
    | some s1 =>
      rw [hstep] at h
      obtain ⟨h1, h2⟩ := loopStep_exited s s1 a hs hstep
      rw [runLoop_exited rest s1 s2 h1 h, h2]

/-! ## Facts about the appended outcomes -/

/-- The outcomes `ProcessEmail` hands to the store: none, one failed record
with a non-empty detail, or one forwarded record. -/
theorem ProcessEmail_appended (env : Env) (st : Store) (email : Email) (accountID : Nat) :
    appended (ProcessEmail env st email accountID).events = [] ∨
    (∃ detail : Str, detail ≠ [] ∧
      appended (ProcessEmail env st email accountID).events
        = [failedLog email accountID detail]) ∨
    (∃ forwardTo : Str,
      appended (ProcessEmail env st email accountID).events
        = [forwardedLog env.now email accountID forwardTo]) := by
  cases h : firstLog env st email.MessageID accountID with
  | ok l =>
    left
    rw [ProcessEmail_of_existing env st email accountID l h]
    rfl
  | error e =>
    rcases hq : parseSubject email.Subject with ⟨k, n, pe⟩
    cases pe with
    | some perr =>
      right; left
      rw [ProcessEmail_parse_failed env st email accountID e perr h (by rw [hq])]
      exact ⟨msgParseFailed ++ perr, by simp [msgParseFailed],
        by simp [Result.after, logFailedEmail, createLog_events, appended]⟩
    | none =>
      cases ht : firstTarget env st n with
      | error te =>
        right; left
        rw [ProcessEmail_target_missing env st email accountID e k n te h hq ht]
        exact ⟨msgTargetNotFound ++ n, by simp [msgTargetNotFound],
          by simp [Result.after, logFailedEmail, createLog_events, appended]⟩
      | ok t =>
        cases hs : env.sendEmail email t.Email accountID with
        | some se =>
          right; left
          rw [ProcessEmail_send_failed env st email accountID e k n se t h hq ht hs]
          exact ⟨msgForwardFailed ++ se, by simp [msgForwardFailed],
            by simp [Result.after, logFailedEmail, createLog_events, appended]⟩
        | none =>
          right; right
          rw [ProcessEmail_send_ok env st email accountID e k n t h hq ht hs]
          exact ⟨t.Email,
            by simp [Result.after, logSuccessfulEmail, createLog_events, appended]⟩

/-! ## Facts about a poll task run on the store -/

theorem processCalls_append (a b : List PollEvent) :
    processCalls (a ++ b) = processCalls a ++ processCalls b := by
  induction a with
  | nil => rfl
  | cons e es ih => cases e <;> simp [processCalls, ih]

theorem stopCalls_append (a b : List PollEvent) :
    stopCalls (a ++ b) = stopCalls a + stopCalls b := by
  induction a with
  | nil => simp [stopCalls]
  | cons e es ih =>
    cases e <;> simp [stopCalls, ih]
    omega

theorem processCalls_net (es : List NetEvent) : processCalls (es.map PollEvent.net) = [] := by
  induction es with
  | nil => rfl
  | cons e es ih => simpa [processCalls] using ih

theorem stopCalls_net (es : List NetEvent) : stopCalls (es.map PollEvent.net) = 0 := by
  induction es with
  | nil => rfl
  | cons e es ih => simpa [stopCalls] using ih

theorem processCalls_calls (accountID : Nat) (emails : List Email) :
    processCalls (emails.map (fun m => PollEvent.processEmail m accountID))
      = emails.map (fun m => (m, accountID)) := by
  induction emails with
  | nil => rfl
  | cons e es ih => simp [processCalls, ih]

theorem stopCalls_calls (accountID : Nat) (emails : List Email) :
    stopCalls (emails.map (fun m => PollEvent.processEmail m accountID)) = 0 := by
  induction emails with
  | nil => rfl
  | cons e es ih => simpa [stopCalls] using ih

theorem processLoop_trace (env : Nat → Env) (accountID : Nat) :
    ∀ (emails : List Email) (i : Nat) (st : Store),
      (processLoop env accountID emails i st).2.1
          = emails.map (fun m => PollEvent.processEmail m accountID) ∧
        (processLoop env accountID emails i st).2.2.length = emails.length
  | [], _, _ => ⟨rfl, rfl⟩
  | email :: rest, i, st => by
    have ih := processLoop_trace env accountID rest (i + 1)
      (ProcessEmail (env i) st email accountID).store
    simp only [processLoop, List.map_cons, List.length_cons]
    exact ⟨by rw [ih.1], by rw [ih.2]⟩

theorem Stop_after_fetch (appConfig : Option AppConfig) (net : Imap) (account : MailAccount) :
    (Stop net (FetchNewEmails net
      (createMailClient appConfig net account).client).client).panicked = false := by
  apply Stop_not_panicked
  rw [FetchNewEmails_client, ensureConnection_stopChanClosed, createMailClient_stopChanClosed]

/-- The effects of a poll task do not depend on the store or on what the
`ProcessEmail` calls return: they are those of `pollAccount`. -/
theorem pollAccountRun_trace (appConfig : Option AppConfig) (net : Imap) (env : Nat → Env)
    (account : MailAccount) (st : Store) :
    (pollAccountRun appConfig net env account st).trace
        = (pollAccount appConfig net account).trace ∧
      (pollAccountRun appConfig net env account st).panicked
        = (pollAccount appConfig net account).panicked := by
  unfold pollAccountRun pollAccount
  simp only
  split
  · exact ⟨rfl, rfl⟩
  · split
    · exact ⟨rfl, rfl⟩
    · split
      · exact ⟨rfl, rfl⟩
      · simp only [(processLoop_trace env account.ID _ 0 st).1]
        constructor <;> first | rfl | trivial

/-! ## Facts about the session after `reconnect` -/

theorem connectLoop_ok_session (net : Imap) (server : Str) (ri : Int) :
    ∀ (k i : Nat) (c0 : Option Session) (e0 : GoError),
      (connectLoop net server ri (k + 1) i c0 e0).2.1 = none →
      ∃ s, (connectLoop net server ri (k + 1) i c0 e0).1 = some s
  | 0, i, c0, e0, h => by
    cases hd : net.dialTLS server i with
    | ok s => exact ⟨s, by simp [connectLoop, hd]⟩
    | error e => simp [connectLoop, hd] at h
  | k + 1, i, c0, e0, h => by
    cases hd : net.dialTLS server i with
    | ok s => exact ⟨s, by rw [connectLoop, hd]⟩
    | error e =>
      rw [connectLoop, hd] at h ⊢
      exact connectLoop_ok_session net server ri k (i + 1) none (some e) h

theorem loginLoop_session_no_panic (net : Imap) (s : Session) (u pw : Str) (ri : Int) :
    ∀ (k i : Nat) (e0 : GoError), (loginLoop net (some s) u pw ri k i e0).2.2 = false
  | 0, _, _ => rfl
  | k + 1, i, e0 => by
    simp only [loginLoop]
    cases net.login s u pw i with
    | none => rfl
    | some e => exact loginLoop_session_no_panic net s u pw ri k (i + 1) (some e)

/-- With a retry count of at least one, a `reconnect` that returns no error
has stored a session and has not panicked. -/
theorem reconnect_session_of_pos (net : Imap) (c : MailClient) (hn : 1 ≤ maxRetryCount c)
    (herr : (reconnect net c).err = none) :
    (reconnect net c).panicked = false ∧ ∃ s, (reconnect net c).client.client = some s := by
  obtain ⟨k, hk⟩ : ∃ k, (maxRetryCount c).toNat = k + 1 :=
    ⟨(maxRetryCount c).toNat - 1, by omega⟩
  have hsess := connectLoop_ok_session net (serverAddr c.config.Server) (retryInterval c) k 0
    none none
  unfold reconnect at herr ⊢
  simp only [maxRetryCount, retryInterval] at herr hsess hk ⊢
  rw [hk] at herr ⊢
  split at herr
  · cases herr
  · rename_i hnone
    obtain ⟨s, hs⟩ := hsess hnone
    simp only [hnone, hs, loginLoop_session_no_panic, Bool.false_eq_true, if_false] at herr ⊢
    split at herr
    · cases herr
    · rename_i hlogin
      simp only [hlogin]
      exact ⟨trivial, s, rfl⟩

/-! ## Facts about the fetched messages -/

theorem parseMessage_no_body (net : Imap) (c : MailClient) (msg : Message) :
    (parseMessage net c msg).1.Body = [] ∧ (parseMessage net c msg).1.RawData = [] ∧
      (parseMessage net c msg).2 = none := by
  unfold parseMessage
  simp only
  refine ⟨?_, ?_, trivial⟩
  · repeat' split
    all_goals rfl
  · repeat' split
    all_goals rfl

theorem collectEmails_mem (net : Imap) (c : MailClient) :
    ∀ (messages : List Message) (emails : List Email) (email : Email),
      email ∈ collectEmails net c messages emails →
      email ∈ emails ∨ ∃ msg ∈ messages, email = (parseMessage net c msg).1
  | [], emails, email, h => Or.inl h
  | msg :: rest, emails, email, h => by
    rw [collectEmails] at h
    split at h
    · rcases collectEmails_mem net c rest emails email h with h1 | ⟨m, hm, he⟩
      · exact Or.inl h1
      · exact Or.inr ⟨m, List.mem_cons_of_mem _ hm, he⟩
    · rename_i e heq
      rcases collectEmails_mem net c rest _ email h with h1 | ⟨m, hm, he⟩
      · rcases List.mem_append.mp h1 with h2 | h2
        · exact Or.inl h2
        · rw [List.mem_singleton] at h2
          refine Or.inr ⟨msg, List.mem_cons_self _ _, ?_⟩
          rw [h2, heq]
      · exact Or.inr ⟨m, List.mem_cons_of_mem _ hm, he⟩

/-- Every message `FetchNewEmails` returns was built by `parseMessage`. -/
theorem FetchNewEmails_mem (net : Imap) (c : MailClient) (email : Email)
    (h : email ∈ (FetchNewEmails net c).emails) :
    ∃ (c2 : MailClient) (msg : Message), email = (parseMessage net c2 msg).1 := by
  unfold FetchNewEmails at h
  simp only at h
  repeat' split at h
  all_goals first
    | (exact absurd h (List.not_mem_nil _))
    | (rcases collectEmails_mem net _ _ _ email h with h1 | ⟨m, _, he⟩
       · exact absurd h1 (List.not_mem_nil _)
       · exact ⟨_, m, he⟩)

/-! ## Facts about the decimal digits of an identifier -/

theorem digitChar_lt_ten (k : Nat) (hk : k < 10) :
    (Nat.digitChar k).toNat - 48 = k ∧ Nat.digitChar k ≠ '-' := by
  interval_cases k <;> exact ⟨by decide, by decide⟩

theorem parseUint_append_singleton (l : Str) (d : Char) :
    parseUint (l ++ [d]) = parseUint l * 10 + (d.toNat - 48) := by
  simp [parseUint, List.foldl_append]

theorem toDigitsCore_spec :
    ∀ (fuel n : Nat) (ds : Str), n < fuel →
      ∃ l : Str, Nat.toDigitsCore 10 fuel n ds = l ++ ds ∧ parseUint l = n ∧
        ∀ ch ∈ l, ch ≠ '-'
  | 0, n, ds, h => by omega
  | fuel + 1, n, ds, h => by
    have hd := digitChar_lt_ten (n % 10) (Nat.mod_lt _ (by decide))
    by_cases h0 : n / 10 = 0
    · refine ⟨[Nat.digitChar (n % 10)], ?_, ?_, ?_⟩
      · simp [Nat.toDigitsCore, h0]
      · have : parseUint [Nat.digitChar (n % 10)] = (Nat.digitChar (n % 10)).toNat - 48 := by
          simp [parseUint]
        rw [this, hd.1]
        omega
      · intro ch hch
        rw [List.mem_singleton] at hch
        rw [hch]
        exact hd.2
    · obtain ⟨l, hl, hv, hc⟩ := toDigitsCore_spec fuel (n / 10)
        (Nat.digitChar (n % 10) :: ds) (by omega)
      refine ⟨l ++ [Nat.digitChar (n % 10)], ?_, ?_, ?_⟩
      · simp only [Nat.toDigitsCore, h0, if_false]
        rw [hl]
        simp
      · rw [parseUint_append_singleton, hv, hd.1]
        omega
      · intro ch hch
        rcases List.mem_append.mp hch with h1 | h1
        · exact hc ch h1
        · rw [List.mem_singleton] at h1
          rw [h1]
          exact hd.2

/-- Reading the digits of `formatUint n` gives `n` back, and none of them is
the separator of the identifier. -/
theorem formatUint_spec (n : Nat) :
    parseUint (formatUint n) = n ∧ ∀ ch ∈ formatUint n, ch ≠ '-' := by
  obtain ⟨l, hl, hv, hc⟩ := toDigitsCore_spec (n + 1) n [] (by omega)
  have : formatUint n = l := by
    unfold formatUint Nat.toDigits
    rw [hl]
    simp
  rw [this]
  exact ⟨hv, hc⟩

theorem formatUint_injective (a b : Nat) (h : formatUint a = formatUint b) : a = b := by
  have := congrArg parseUint h
  rwa [(formatUint_spec a).1, (formatUint_spec b).1] at this

theorem append_sep_inj (sep : Char) :
    ∀ (l1 l2 r1 r2 : Str), (∀ ch ∈ l1, ch ≠ sep) → (∀ ch ∈ l2, ch ≠ sep) →
      l1 ++ sep :: r1 = l2 ++ sep :: r2 → l1 = l2 ∧ r1 = r2
  | [], [], r1, r2, _, _, h => by
    simp only [List.nil_append, List.cons.injEq, true_and] at h
    exact ⟨rfl, h⟩
  | [], y :: ys, r1, r2, _, h2, h => by
    simp only [List.nil_append, List.cons_append, List.cons.injEq] at h
    exact absurd h.1.symm (h2 y (List.mem_cons_self _ _))
  | x :: xs, [], r1, r2, h1, _, h => by
    simp only [List.nil_append, List.cons_append, List.cons.injEq] at h
    exact absurd h.1 (h1 x (List.mem_cons_self _ _))
  | x :: xs, y :: ys, r1, r2, h1, h2, h => by
    simp only [List.cons_append, List.cons.injEq] at h
    obtain ⟨ih1, ih2⟩ := append_sep_inj sep xs ys r1 r2
      (fun ch hch => h1 ch (List.mem_cons_of_mem _ hch))
      (fun ch hch => h2 ch (List.mem_cons_of_mem _ hch)) h.2
    exact ⟨by rw [h.1, ih1], ih2⟩

/-! ## Isolation of a poll task that returns an error -/

/-- A poll pass launches one task per enabled account the Directory returns,
and none when the Directory read fails. When the task of one of these accounts
ends on a connect or fetch failure that is returned as an error (`PollFails`,
which leaves out a task that ends in a run-time panic), it makes no store
operation, and
under every interleaving of the store operations of the tasks of the pass the
store is the one that the pass without that account reaches under the same
interleaving of the other tasks, and the other way round. -/
theorem pollAllAccounts_isolation (sch : SchedulerService) :
    (∀ e, sch.accountsErr = some e → pollAllAccounts sch = []) ∧
    (sch.accountsErr = none →
      pollAllAccounts sch =
        (sch.accounts.filter (fun a => a.IsActive && a.DeletedAt.isNone)).map
          (pollAccountTask sch) ∧
      (pollAllAccounts sch).length =
        (sch.accounts.filter (fun a => a.IsActive && a.DeletedAt.isNone)).length) ∧
    (∀ (as1 : List MailAccount) (a : MailAccount) (as2 : List MailAccount),
      getActiveAccounts sch.accountsErr sch.accounts = (as1 ++ a :: as2, none) →
      PollFails sch.config (sch.net a) a →
      pollAccountTask sch a = PollTask.done ∧
      (pollAccount sch.config (sch.net a) a).emails = [] ∧
      (∀ (sched : List Nat) (st : Store),
        runPool (pollAllAccounts sch) sched st =
          runPool ((as1 ++ as2).map (pollAccountTask sch)) (dropIndex as1.length sched) st) ∧
      (∀ (sched : List Nat) (st : Store),
        runPool ((as1 ++ as2).map (pollAccountTask sch)) sched st =
          runPool (pollAllAccounts sch) (liftIndex as1.length sched) st)) := by
  refine ⟨?_, ?_, ?_⟩
  · intro e he
    simp [pollAllAccounts, getActiveAccounts, he]
  · intro he
    simp [pollAllAccounts, getActiveAccounts, he]
  · intro as1 a as2 hdir hfail
    have htask := pollAccountTask_of_fails sch a hfail
    have hpool : pollAllAccounts sch =
        as1.map (pollAccountTask sch) ++ PollTask.done :: as2.map (pollAccountTask sch) := by
      unfold pollAllAccounts
      rw [hdir]
      simp [htask]
    have hlen : (as1.map (pollAccountTask sch)).length = as1.length := List.length_map _ _
    refine ⟨htask, (pollAccount_of_fails _ _ _ hfail).1, ?_, ?_⟩
    · intro sched st
      rw [hpool, runPool_insert_done, hlen, List.map_append]
    · intro sched st
      rw [hpool, List.map_append, runPool_insert_done_lift, hlen]

/-- Sample of the isolation: the pass over account 2, whose server refuses the
connection, and account 1, which has one unread message. -/
theorem pollAllAccounts_isolation_sample :
    pollAccountTask sampleScheduler account2 = PollTask.done ∧
    (pollAccount sampleScheduler.config (sampleScheduler.net account2) account2).emails = [] ∧
    (∀ (sched : List Nat) (st : Store),
      runPool (pollAllAccounts sampleScheduler) sched st =
        runPool (([] ++ [account1]).map (pollAccountTask sampleScheduler))
          (dropIndex ([] : List MailAccount).length sched) st) ∧
    (∀ (sched : List Nat) (st : Store),
      runPool (([] ++ [account1]).map (pollAccountTask sampleScheduler)) sched st =
        runPool (pollAllAccounts sampleScheduler)
          (liftIndex ([] : List MailAccount).length sched) st) :=
  (pollAllAccounts_isolation sampleScheduler).2.2 [] account2 [account1] (by decide)
    (Or.inl (by decide))

/-! ## The claims -/

/-- C1 (as amended). Two calls of `ProcessEmail` in succession for the same
(accountID, message identifier), when the store answers the duplicate lookups
and accepts the append: the second call finds an existing outcome, leaves the
store unchanged, appends nothing, attempts no delivery and returns no error;
and if the Audit Log held at most one outcome for the pair before the first
call, it holds exactly one afterwards. -/
theorem C1_ProcessEmail_idempotent (env1 env2 : Env) (st : Store) (e1 e2 : Email)
    (accountID : Nat) (hid : e2.MessageID = e1.MessageID)
    (hf1 : env1.findLogErr = none) (hc1 : env1.createErr = none)
    (hf2 : env2.findLogErr = none) :
    (∃ l, firstLog env2 (ProcessEmail env1 st e1 accountID).store e2.MessageID accountID
        = Except.ok l) ∧
    (ProcessEmail env2 (ProcessEmail env1 st e1 accountID).store e2 accountID).store
      = (ProcessEmail env1 st e1 accountID).store ∧
    appended (ProcessEmail env2 (ProcessEmail env1 st e1 accountID).store e2 accountID).events
      = [] ∧
    deliveries (ProcessEmail env2 (ProcessEmail env1 st e1 accountID).store e2 accountID).events
      = [] ∧
    (ProcessEmail env2 (ProcessEmail env1 st e1 accountID).store e2 accountID).err = none ∧
    ((outcomesFor st accountID e1.MessageID).length ≤ 1 →
      (outcomesFor (ProcessEmail env2 (ProcessEmail env1 st e1 accountID).store e2
        accountID).store accountID e1.MessageID).length = 1) := by
  have key : (∃ l ∈ (ProcessEmail env1 st e1 accountID).store.logs,
        l.MessageID = e1.MessageID ∧ l.AccountID = accountID) ∧
      ((outcomesFor st accountID e1.MessageID).length ≤ 1 →
        (outcomesFor (ProcessEmail env1 st e1 accountID).store accountID e1.MessageID).length
          = 1) := by
    cases h1 : firstLog env1 st e1.MessageID accountID with
    | ok l =>
      rw [ProcessEmail_of_existing env1 st e1 accountID l h1]
      obtain ⟨hm, hp⟩ := firstLog_ok_mem env1 st _ _ l h1
      refine ⟨⟨l, hm, hp⟩, fun hle => ?_⟩
      have := outcomesFor_pos_of_mem st accountID e1.MessageID l hm hp
      simp only
      omega
    | error e =>
      obtain ⟨l, hl, hp⟩ := ProcessEmail_fresh_logs env1 st e1 accountID e h1 hc1
      refine ⟨⟨l, by rw [hl]; simp, hp⟩, fun _ => ?_⟩
      have habs := firstLog_error_absent env1 st _ _ hf1 e h1
      have h0 := outcomesFor_nil_of_absent st accountID e1.MessageID habs
      unfold outcomesFor at h0 ⊢
      rw [hl, List.filter_append, h0]
      simp [hp]
  obtain ⟨hpres, hcount⟩ := key
  obtain ⟨l2, h2⟩ := firstLog_ok_of_present env2 (ProcessEmail env1 st e1 accountID).store
    e2.MessageID accountID hf2 (by rw [hid]; exact hpres)
  have hr := ProcessEmail_of_existing env2 _ e2 accountID l2 h2
  refine ⟨⟨l2, h2⟩, ?_, ?_, ?_, ?_, ?_⟩
  · rw [hr]
  · rw [hr]; rfl
  · rw [hr]; rfl
  · rw [hr]
  · rw [hr]; exact hcount

/-- Witness of C1: a fresh message processed twice leaves exactly one outcome. -/
theorem C1_ProcessEmail_idempotent_witness :
    (outcomesFor (ProcessEmail okEnv (ProcessEmail okEnv ⟨[], [sampleTarget]⟩ sampleEmail
      1).store sampleEmail 1).store 1 sampleEmail.MessageID).length = 1 :=
  (C1_ProcessEmail_idempotent okEnv okEnv ⟨[], [sampleTarget]⟩ sampleEmail sampleEmail 1
    rfl rfl rfl rfl).2.2.2.2.2 (by decide)

/-- Counterexample to C1 as stated ("for every Audit Log state"): from an Audit
Log that already holds two outcomes for the pair, two calls of `ProcessEmail`,
with every store operation succeeding, leave two outcomes for it, not one.
Such a log arises from the empty one when a duplicate lookup fails with a
store error, which `ProcessEmail` treats like "not found". -/
theorem C1_counterexample_two_outcomes :
    okEnv.createErr = none ∧ okEnv.findLogErr = none ∧
    (outcomesFor (ProcessEmail okEnv (ProcessEmail okEnv ⟨[sampleLog, sampleLog], [sampleTarget]⟩
      sampleEmail 1).store sampleEmail 1).store 1 sampleEmail.MessageID).length = 2 ∧
    (outcomesFor (ProcessEmail lostEnv (ProcessEmail okEnv ⟨[], [sampleTarget]⟩
      sampleEmail 1).store sampleEmail 1).store 1 sampleEmail.MessageID).length = 2 := by
  decide

/-- C2. For a subject that contains the separator, with `a` the text before
its first occurrence and `b` the text after it, if both trimmed parts are
non-empty then `parseSubject` returns them as keyword and target, with no
error. -/
theorem C2_parseSubject_success (subject a b : Str)
    (hsplit : FirstSplit subjectSep subject a b)
    (ha : TrimSpace a ≠ []) (hb : TrimSpace b ≠ []) :
    parseSubject subject = (TrimSpace a, TrimSpace b, none) := by
  rw [parseSubject_of_Cut_some (Cut_of_FirstSplit hsplit)]
  simp [ha, hb]

/-- Witness of C2: the two subjects of the test table. -/
theorem C2_parseSubject_success_witness :
    parseSubject "报警 - 张三".toList = ("报警".toList, "张三".toList, none) ∧
    parseSubject " 通知 - 财务部 ".toList = ("通知".toList, "财务部".toList, none) :=
  ⟨(C2_parseSubject_success "报警 - 张三".toList "报警".toList "张三".toList
      (FirstSplit_of_Cut (by decide)) (by decide) (by decide)).trans (by decide),
   (C2_parseSubject_success " 通知 - 财务部 ".toList " 通知".toList "财务部 ".toList
      (FirstSplit_of_Cut (by decide)) (by decide) (by decide)).trans (by decide)⟩

/-- C3. If the separator is absent from the subject, or the part before its
first occurrence, or the part after it, is empty after trimming, then
`parseSubject` returns an error and both returned strings are empty. -/
theorem C3_parseSubject_rejects (subject : Str)
    (h : (¬ ∃ a b : Str, subject = a ++ subjectSep ++ b) ∨
      ∃ a b : Str, FirstSplit subjectSep subject a b ∧ (TrimSpace a = [] ∨ TrimSpace b = [])) :
    (parseSubject subject).2.2 ≠ none ∧ (parseSubject subject).1 = [] ∧
      (parseSubject subject).2.1 = [] := by
  rcases h with h | ⟨a, b, hs, hab⟩
  · cases hc : Cut subjectSep subject with
    | none => rw [parseSubject_of_Cut_none hc]; simp
    | some p =>
      exfalso
      exact h ⟨p.1, p.2, Cut_eq_some hc⟩
  · rw [parseSubject_of_Cut_some (Cut_of_FirstSplit hs), if_pos hab]
    simp

/-- Witness of C3: the four rejected subjects of the test table. -/
theorem C3_parseSubject_rejects_witness :
    ((parseSubject "报警张三".toList).2.2 ≠ none ∧ (parseSubject "报警张三".toList).1 = [] ∧
      (parseSubject "报警张三".toList).2.1 = []) ∧
    ((parseSubject []).2.2 ≠ none ∧ (parseSubject []).1 = [] ∧ (parseSubject []).2.1 = []) ∧
    ((parseSubject "报警 - ".toList).2.2 ≠ none ∧ (parseSubject "报警 - ".toList).1 = [] ∧
      (parseSubject "报警 - ".toList).2.1 = []) ∧
    ((parseSubject " - 张三".toList).2.2 ≠ none ∧ (parseSubject " - 张三".toList).1 = [] ∧
      (parseSubject " - 张三".toList).2.1 = []) :=
  ⟨C3_parseSubject_rejects "报警张三".toList
      (Or.inl (fun ⟨a, b, e⟩ => Cut_eq_none (by decide) a b e)),
   C3_parseSubject_rejects []
      (Or.inl (fun ⟨a, b, e⟩ => Cut_eq_none (by decide) a b e)),
   C3_parseSubject_rejects "报警 - ".toList
      (Or.inr ⟨"报警".toList, [], FirstSplit_of_Cut (by decide), Or.inr (by decide)⟩),
   C3_parseSubject_rejects " - 张三".toList
      (Or.inr ⟨[], "张三".toList, FirstSplit_of_Cut (by decide), Or.inl (by decide)⟩)⟩

/-- C4 (as amended). For a subject whose split on the separator yields more
than two parts, `parseSubject` splits at the first separator only: with `a` the
text before it and `b` the whole remainder (which still contains a separator),
it returns keyword `TrimSpace a` and target `TrimSpace b` with no error, and
fails only when `a` is empty after trimming. -/
theorem C4_parseSubject_splits_once (subject : Str)
    (h : 2 < (Split subject subjectSep).length) :
    ∃ a b : Str, FirstSplit subjectSep subject a b ∧
      (∃ c d : Str, b = c ++ subjectSep ++ d) ∧
      parseSubject subject =
        if TrimSpace a = [] then ([], [], some errSubjectEmpty)
        else (TrimSpace a, TrimSpace b, none) := by
  obtain ⟨a, b, hab, c, d, hcd⟩ := SplitN_length_gt_two h
  refine ⟨a, b, FirstSplit_of_Cut hab, ⟨c, d, Cut_eq_some hcd⟩, ?_⟩
  have hb : TrimSpace b ≠ [] := by
    apply TrimSpace_ne_nil (c := '-')
    · rw [Cut_eq_some hcd]
      simp [subjectSep]
    · decide
  rw [parseSubject_of_Cut_some hab]
  simp [hb]

/-- Witness of C4: the three-part subject "a - b - c". -/
theorem C4_parseSubject_splits_once_witness :
    ∃ a b : Str, FirstSplit subjectSep "a - b - c".toList a b ∧
      (∃ c d : Str, b = c ++ subjectSep ++ d) ∧
      parseSubject "a - b - c".toList =
        if TrimSpace a = [] then ([], [], some errSubjectEmpty)
        else (TrimSpace a, TrimSpace b, none) :=
  C4_parseSubject_splits_once "a - b - c".toList (by decide)

/-- Counterexample to C4 as stated: the subject "a - b - c" splits into three
parts, yet `parseSubject` returns no error and the target name "b - c". -/
theorem C4_counterexample_three_parts :
    Split "a - b - c".toList subjectSep = ["a".toList, "b".toList, "c".toList] ∧
    parseSubject "a - b - c".toList = ("a".toList, "b - c".toList, none) := by
  decide

/-- C5. For a message with no existing outcome whose subject parses to the
target name `n`, if the Directory holds no forward target named `n`, then
`ProcessEmail` hands exactly one outcome to the store, with status "failed" and
an error detail that contains `n` (it is the last row of the Audit Log when the
store accepts it), and `SenderService.SendEmail` is never invoked. -/
theorem C5_missing_target (env : Env) (st : Store) (email : Email) (accountID : Nat)
    (k n : Str)
    (hfresh : ∀ l ∈ st.logs, ¬ (l.MessageID = email.MessageID ∧ l.AccountID = accountID))
    (hparse : parseSubject email.Subject = (k, n, none))
    (hmiss : ∀ t ∈ st.targets, t.Name ≠ n) :
    ∃ out : MailLog,
      appended (ProcessEmail env st email accountID).events = [out] ∧
      out.Status = "failed".toList ∧ n <:+: out.Error ∧
      deliveries (ProcessEmail env st email accountID).events = [] ∧
      (env.createErr = none →
        (ProcessEmail env st email accountID).store.logs = st.logs ++ [out]) := by
  obtain ⟨e, he⟩ := firstLog_error_of_absent env st email.MessageID accountID hfresh
  obtain ⟨te, hte⟩ := firstTarget_error_of_absent env st n hmiss
  rw [ProcessEmail_target_missing env st email accountID e k n te he hparse hte]
  refine ⟨failedLog email accountID (msgTargetNotFound ++ n), ?_, rfl,
    ⟨msgTargetNotFound, [], by simp [failedLog]⟩, ?_, ?_⟩
  · simp [Result.after, logFailedEmail, createLog_events, appended]
  · simp [Result.after, logFailedEmail, createLog_events, deliveries]
  · intro hc
    simp only [Result.after, logFailedEmail]
    exact createLog_logs env st _ hc

/-- Witness of C5: `sampleEmail` with an empty Directory. -/
theorem C5_missing_target_witness :
    ∃ out : MailLog,
      appended (ProcessEmail okEnv ⟨[], []⟩ sampleEmail 1).events = [out] ∧
      out.Status = "failed".toList ∧ "张三".toList <:+: out.Error ∧
      deliveries (ProcessEmail okEnv ⟨[], []⟩ sampleEmail 1).events = [] ∧
      (okEnv.createErr = none →
        (ProcessEmail okEnv ⟨[], []⟩ sampleEmail 1).store.logs = [] ++ [out]) :=
  C5_missing_target okEnv ⟨[], []⟩ sampleEmail 1 "报警".toList "张三".toList
    (by decide) (by decide) (by decide)

/-- C6. For a message with no existing outcome whose subject `parseSubject`
rejects with error text `perr`, `ProcessEmail` hands exactly one outcome to the
store, with status "failed" and error detail "解析主题失败: " followed by `perr`
(it is the last row of the Audit Log when the store accepts it), and performs
neither a target lookup nor a delivery attempt. -/
theorem C6_parse_failure_outcome (env : Env) (st : Store) (email : Email) (accountID : Nat)
    (perr : Str)
    (hfresh : ∀ l ∈ st.logs, ¬ (l.MessageID = email.MessageID ∧ l.AccountID = accountID))
    (hparse : (parseSubject email.Subject).2.2 = some perr) :
    ∃ out : MailLog,
      appended (ProcessEmail env st email accountID).events = [out] ∧
      out.Status = "failed".toList ∧ out.Error = "解析主题失败: ".toList ++ perr ∧
      targetLookups (ProcessEmail env st email accountID).events = [] ∧
      deliveries (ProcessEmail env st email accountID).events = [] ∧
      (env.createErr = none →
        (ProcessEmail env st email accountID).store.logs = st.logs ++ [out]) := by
  obtain ⟨e, he⟩ := firstLog_error_of_absent env st email.MessageID accountID hfresh
  rw [ProcessEmail_parse_failed env st email accountID e perr he hparse]
  refine ⟨failedLog email accountID (msgParseFailed ++ perr), ?_, rfl, rfl, ?_, ?_, ?_⟩
  · simp [Result.after, logFailedEmail, createLog_events, appended]
  · simp [Result.after, logFailedEmail, createLog_events, targetLookups]
  · simp [Result.after, logFailedEmail, createLog_events, deliveries]
  · intro hc
    simp only [Result.after, logFailedEmail]
    exact createLog_logs env st _ hc

/-- Witness of C6: a subject without separator. -/
theorem C6_parse_failure_outcome_witness :
    ∃ out : MailLog,
      appended (ProcessEmail okEnv ⟨[], [sampleTarget]⟩ badEmail 1).events = [out] ∧
      out.Status = "failed".toList ∧
      out.Error = "解析主题失败: ".toList ++ errSubjectFormat ∧
      targetLookups (ProcessEmail okEnv ⟨[], [sampleTarget]⟩ badEmail 1).events = [] ∧
      deliveries (ProcessEmail okEnv ⟨[], [sampleTarget]⟩ badEmail 1).events = [] ∧
      (okEnv.createErr = none →
        (ProcessEmail okEnv ⟨[], [sampleTarget]⟩ badEmail 1).store.logs = [] ++ [out]) :=
  C6_parse_failure_outcome okEnv ⟨[], [sampleTarget]⟩ badEmail 1 errSubjectFormat
    (by decide) (by decide)

/-- C7. For a message with no existing outcome whose subject parses to `n` and
whose target lookup resolves to the target `t`, `ProcessEmail` invokes delivery
exactly once, with destination `t.Email`; if delivery returns the error `e` it
hands exactly one outcome to the store, "failed" with an error detail that
contains `e`; if delivery succeeds it hands exactly one outcome to the store,
"forwarded" with destination `t.Email` and the forwarded time set to the
current time. The outcome is the last row of the Audit Log when the store
accepts it. -/
theorem C7_delivery_classification (env : Env) (st : Store) (email : Email) (accountID : Nat)
    (k n : Str) (t : ForwardTarget)
    (hfresh : ∀ l ∈ st.logs, ¬ (l.MessageID = email.MessageID ∧ l.AccountID = accountID))
    (hparse : parseSubject email.Subject = (k, n, none))
    (hres : firstTarget env st n = Except.ok t) :
    deliveries (ProcessEmail env st email accountID).events = [(email, t.Email, accountID)] ∧
    (∀ e : Str, env.sendEmail email t.Email accountID = some e →
      ∃ out : MailLog,
        appended (ProcessEmail env st email accountID).events = [out] ∧
        out.Status = "failed".toList ∧ e <:+: out.Error ∧
        (env.createErr = none →
          (ProcessEmail env st email accountID).store.logs = st.logs ++ [out])) ∧
    (env.sendEmail email t.Email accountID = none →
      ∃ out : MailLog,
        appended (ProcessEmail env st email accountID).events = [out] ∧
        out.Status = "forwarded".toList ∧ out.ForwardTo = t.Email ∧
        out.ForwardedAt = some env.now ∧
        (env.createErr = none →
          (ProcessEmail env st email accountID).store.logs = st.logs ++ [out])) := by
  obtain ⟨e0, he⟩ := firstLog_error_of_absent env st email.MessageID accountID hfresh
  refine ⟨?_, ?_, ?_⟩
  · cases hs : env.sendEmail email t.Email accountID with
    | some se =>
      rw [ProcessEmail_send_failed env st email accountID e0 k n se t he hparse hres hs]
      simp [Result.after, logFailedEmail, createLog_events, deliveries]
    | none =>
      rw [ProcessEmail_send_ok env st email accountID e0 k n t he hparse hres hs]
      simp [Result.after, logSuccessfulEmail, createLog_events, deliveries]
  · intro se hs
    rw [ProcessEmail_send_failed env st email accountID e0 k n se t he hparse hres hs]
    refine ⟨failedLog email accountID (msgForwardFailed ++ se), ?_, rfl,
      ⟨msgForwardFailed, [], by simp [failedLog]⟩, ?_⟩
    · simp [Result.after, logFailedEmail, createLog_events, appended]
    · intro hc
      simp only [Result.after, logFailedEmail]
      exact createLog_logs env st _ hc
  · intro hs
    rw [ProcessEmail_send_ok env st email accountID e0 k n t he hparse hres hs]
    refine ⟨forwardedLog env.now email accountID t.Email, ?_, rfl, rfl, rfl, ?_⟩
    · simp [Result.after, logSuccessfulEmail, createLog_events, appended]
    · intro hc
      simp only [Result.after, logSuccessfulEmail]
      exact createLog_logs env st _ hc

/-- Witness of C7: `sampleEmail` with its target in the Directory, once with a
failing and once with a succeeding delivery. -/
theorem C7_delivery_classification_witness :
    (∃ out : MailLog,
      appended (ProcessEmail failEnv ⟨[], [sampleTarget]⟩ sampleEmail 1).events = [out] ∧
      out.Status = "failed".toList ∧ "发送邮件失败: timeout".toList <:+: out.Error ∧
      (failEnv.createErr = none →
        (ProcessEmail failEnv ⟨[], [sampleTarget]⟩ sampleEmail 1).store.logs = [] ++ [out])) ∧
    (∃ out : MailLog,
      appended (ProcessEmail okEnv ⟨[], [sampleTarget]⟩ sampleEmail 1).events = [out] ∧
      out.Status = "forwarded".toList ∧ out.ForwardTo = "zhangsan@example.com".toList ∧
      out.ForwardedAt = some 100 ∧
      (okEnv.createErr = none →
        (ProcessEmail okEnv ⟨[], [sampleTarget]⟩ sampleEmail 1).store.logs = [] ++ [out])) :=
  ⟨(C7_delivery_classification failEnv ⟨[], [sampleTarget]⟩ sampleEmail 1 "报警".toList
      "张三".toList sampleTarget (by decide) (by decide) rfl).2.1 _ rfl,
   (C7_delivery_classification okEnv ⟨[], [sampleTarget]⟩ sampleEmail 1 "报警".toList
      "张三".toList sampleTarget (by decide) (by decide) rfl).2.2 rfl⟩

/-- C8. `sendMailWithFallback` makes its attempts in the order of the chain
[STARTTLS on the mapped port (only if that port is "587"), implicit TLS on
"465", plaintext on "25"]: the attempts made are a non-empty initial part of
the chain, each attempt before the last one made failed, the call returns no
error exactly when the last attempt made returned none, and it returns the
error "所有发送方式都失败" exactly when every attempt made failed, in which case
the whole chain was tried. In particular, when STARTTLS fails and implicit TLS
succeeds, exactly the two attempts STARTTLS and implicit TLS are made and the
call succeeds. -/
theorem C8_fallback_chain (net : Smtp) (smtpServer smtpPort toEmail : Str) (body : Bytes) :
    (sendMailWithFallback net smtpServer smtpPort toEmail body).1 <+:
      fallbackChain smtpServer smtpPort toEmail body ∧
    (sendMailWithFallback net smtpServer smtpPort toEmail body).1 ≠ [] ∧
    (∀ a ∈ (sendMailWithFallback net smtpServer smtpPort toEmail body).1.dropLast,
      net.run a ≠ none) ∧
    ((sendMailWithFallback net smtpServer smtpPort toEmail body).2 = none ↔
      ∃ a, (sendMailWithFallback net smtpServer smtpPort toEmail body).1.getLast? = some a ∧
        net.run a = none) ∧
    ((sendMailWithFallback net smtpServer smtpPort toEmail body).2 = some errAllFailed ↔
      ∀ a ∈ (sendMailWithFallback net smtpServer smtpPort toEmail body).1, net.run a ≠ none) ∧
    ((sendMailWithFallback net smtpServer smtpPort toEmail body).2 = none ∨
      (sendMailWithFallback net smtpServer smtpPort toEmail body).2 = some errAllFailed) ∧
    ((sendMailWithFallback net smtpServer smtpPort toEmail body).2 ≠ none →
      (sendMailWithFallback net smtpServer smtpPort toEmail body).1 =
        fallbackChain smtpServer smtpPort toEmail body) ∧
    (smtpPort = "587".toList →
      net.sendMailWithSTARTTLS smtpServer smtpPort toEmail body ≠ none →
      net.sendMailWithSSL smtpServer "465".toList toEmail body = none →
      sendMailWithFallback net smtpServer smtpPort toEmail body =
        ([⟨Method.STARTTLS, smtpServer, smtpPort, toEmail, body⟩,
          ⟨Method.SSL, smtpServer, "465".toList, toEmail, body⟩], none)) := by
  unfold sendMailWithFallback fallbackChain
  generalize "587".toList = p587
  generalize "465".toList = p465
  generalize "25".toList = p25
  by_cases hp : smtpPort = p587
  · subst hp
    cases h1 : net.sendMailWithSTARTTLS smtpServer smtpPort toEmail body <;>
    cases h2 : net.sendMailWithSSL smtpServer p465 toEmail body <;>
    cases h3 : net.sendMailPlain smtpServer p25 toEmail body <;>
    simp [h1, h2, h3, Smtp.run, List.dropLast]
  · cases h2 : net.sendMailWithSSL smtpServer p465 toEmail body <;>
    cases h3 : net.sendMailPlain smtpServer p25 toEmail body <;>
    simp [hp, h2, h3, Smtp.run, List.dropLast]

/-- C9. The submission endpoint derived from the retrieval server `s` follows
the provider table, first match first: ("smtp.qq.com", "587") if `s` contains
"qq.com"; else ("smtp.gmail.com", "587") if it contains "gmail.com"; else
("smtp.163.com", "25") if it contains "163.com"; else ("smtp.126.com", "25") if
it contains "126.com"; otherwise, when `s` begins with "imap.", the server is
"smtp." followed by the remainder of `s`, and the port is "587". -/
theorem C9_submission_endpoint_table (config : Config) :
    ("qq.com".toList <:+: config.Server →
      getSMTPServer config = "smtp.qq.com".toList ∧ getSMTPPort config = "587".toList) ∧
    (¬ "qq.com".toList <:+: config.Server → "gmail.com".toList <:+: config.Server →
      getSMTPServer config = "smtp.gmail.com".toList ∧ getSMTPPort config = "587".toList) ∧
    (¬ "qq.com".toList <:+: config.Server → ¬ "gmail.com".toList <:+: config.Server →
      "163.com".toList <:+: config.Server →
      getSMTPServer config = "smtp.163.com".toList ∧ getSMTPPort config = "25".toList) ∧
    (¬ "qq.com".toList <:+: config.Server → ¬ "gmail.com".toList <:+: config.Server →
      ¬ "163.com".toList <:+: config.Server → "126.com".toList <:+: config.Server →
      getSMTPServer config = "smtp.126.com".toList ∧ getSMTPPort config = "25".toList) ∧
    (¬ "qq.com".toList <:+: config.Server → ¬ "gmail.com".toList <:+: config.Server →
      ¬ "163.com".toList <:+: config.Server → ¬ "126.com".toList <:+: config.Server →
      ∀ r : Str, config.Server = "imap.".toList ++ r →
        getSMTPServer config = "smtp.".toList ++ r ∧ getSMTPPort config = "587".toList) := by
  simp only [← Contains_iff_infix]
  refine ⟨?_, ?_, ?_, ?_, ?_⟩
  · intro h1
    simp only [getSMTPServer, getSMTPPort, if_pos h1, and_self]
  · intro h1 h2
    simp only [getSMTPServer, getSMTPPort, if_neg h1, if_pos h2, and_self]
  · intro h1 h2 h3
    simp only [getSMTPServer, getSMTPPort, if_neg h1, if_neg h2, if_pos h3, and_self]
  · intro h1 h2 h3 h4
    simp only [getSMTPServer, getSMTPPort, if_neg h1, if_neg h2, if_neg h3, if_pos h4, and_self]
  · intro h1 h2 h3 h4 r hr
    simp only [getSMTPServer, getSMTPPort, if_neg h1, if_neg h2, if_neg h3, if_neg h4]
    rw [hr, ReplaceFirst_of_prefix]
    exact ⟨rfl, trivial⟩

/-- C10, evaluated at the retrieval server "imap.example.com:993" of the
client test and at "imap.sina.com:993", a default of `getIMAPServer`:
`getSMTPServer` keeps the retrieval port, so the derived server differs from
the one derived for the bare host, and every address the fallback chain dials
carries two ports. -/
theorem C10_getSMTPServer_keeps_port :
    getSMTPServer (configFor "imap.example.com:993".toList) = "smtp.example.com:993".toList ∧
    getSMTPServer (configFor "imap.example.com".toList) = "smtp.example.com".toList ∧
    getSMTPServer (configFor "imap.sina.com:993".toList) = "smtp.sina.com:993".toList ∧
    (fallbackChain (getSMTPServer (configFor "imap.example.com:993".toList))
        (getSMTPPort (configFor "imap.example.com:993".toList)) [] []).map
      (fun a => dialAddr a.smtpServer a.port) =
      ["smtp.example.com:993:587".toList, "smtp.example.com:993:465".toList,
       "smtp.example.com:993:25".toList] := by
  decide

/-- C11, evaluated at a retry count of 3 where the connect step succeeds,
the first login attempt fails and the second one succeeds: `reconnect` makes
the two login attempts, then logs the session out, stores no session and
returns the authentication error of the first attempt. -/
theorem C11_login_retry_keeps_stale_error :
    maxRetryCount sampleClient = 3 ∧
    flakyLoginImap.login 7 "test@example.com".toList "password".toList 0
      = some "authentication failed".toList ∧
    flakyLoginImap.login 7 "test@example.com".toList "password".toList 1 = none ∧
    (reconnect flakyLoginImap sampleClient).events =
      [NetEvent.dialTLS "imap.example.com:993".toList,
       NetEvent.login 7 "test@example.com".toList "password".toList,
       NetEvent.sleep 60,
       NetEvent.login 7 "test@example.com".toList "password".toList,
       NetEvent.logout 7] ∧
    (reconnect flakyLoginImap sampleClient).err
      = some ("IMAP登录失败: ".toList ++ "authentication failed".toList) ∧
    (reconnect flakyLoginImap sampleClient).client.client = none := by
  decide

/-- C12. With `n` the retry count `reconnect` uses (the configured
`MaxRetryCount`, or 3 without application config) and `n ≥ 1`: `reconnect`
makes at most `n` connect attempts; if attempt number `j < n` is the first to
succeed it makes exactly `j + 1` attempts and returns no connection error; if
all `n` attempts fail it makes exactly `n`; and it returns a connection error
if and only if all `n` connect attempts fail. -/
theorem C12_connect_retry_bound (net : Imap) (c : MailClient) (hn : 1 ≤ maxRetryCount c) :
    (c.appConfig = none → maxRetryCount c = 3) ∧
    (∀ a, c.appConfig = some a → maxRetryCount c = a.Mail.MaxRetryCount) ∧
    (dialAttempts (reconnect net c).events).length ≤ (maxRetryCount c).toNat ∧
    (∀ (j : Nat) (s : Session), j < (maxRetryCount c).toNat →
      (∀ j2, j2 < j → ∃ e, net.dialTLS (serverAddr c.config.Server) j2 = Except.error e) →
      net.dialTLS (serverAddr c.config.Server) j = Except.ok s →
      (dialAttempts (reconnect net c).events).length = j + 1 ∧
      ¬ IsConnectError (reconnect net c).err) ∧
    ((∀ j, j < (maxRetryCount c).toNat →
        ∃ e, net.dialTLS (serverAddr c.config.Server) j = Except.error e) →
      (dialAttempts (reconnect net c).events).length = (maxRetryCount c).toNat) ∧
    (IsConnectError (reconnect net c).err ↔
      ∀ j, j < (maxRetryCount c).toNat →
        ∃ e, net.dialTLS (serverAddr c.config.Server) j = Except.error e) := by
  obtain ⟨k, hk⟩ : ∃ k, (maxRetryCount c).toNat = k + 1 :=
    ⟨(maxRetryCount c).toNat - 1, by omega⟩
  rw [reconnect_dialAttempts, reconnect_IsConnectError, hk]
  refine ⟨fun h => by simp [maxRetryCount, h], fun a h => by simp [maxRetryCount, h],
    connectLoop_dials_le _ _ _ _ _ _ _, ?_, ?_, ?_⟩
  · intro j s hj hfail hok
    have h := connectLoop_first_success net (serverAddr c.config.Server) (retryInterval c) s
      j (k + 1) 0 none none hj (by simpa using hfail) (by simpa using hok)
    exact ⟨h.2.2, by rw [h.2.1]; simp⟩
  · intro hall
    exact (connectLoop_all_fail net _ _ k 0 none none (by simpa using hall)).2.2
  · constructor
    · intro h
      simpa using connectLoop_err_all_fail net _ _ k 0 none none h
    · intro hall
      obtain ⟨e, he⟩ := (connectLoop_all_fail net (serverAddr c.config.Server)
        (retryInterval c) k 0 none none (by simpa using hall)).2.1
      rw [he]
      simp

/-- Witness of C12: with a retry count of 3, a first connect attempt that fails
and a second that succeeds, two connect attempts are made. -/
theorem C12_connect_retry_bound_witness :
    (dialAttempts (reconnect flakyDialImap sampleClient).events).length = 1 + 1 ∧
    ¬ IsConnectError (reconnect flakyDialImap sampleClient).err :=
  (C12_connect_retry_bound flakyDialImap sampleClient (by decide)).2.2.2.1 1 7 (by decide)
    (fun j2 hj2 => ⟨"timeout".toList, by
      have h0 : j2 = 0 := by omega
      subst h0
      rfl⟩)
    rfl

/-- C20. The three cases of `ensureConnection`: without a session it is a
`reconnect`; with a session whose no-op probe succeeds it returns no error,
makes no operation but the probe (no connect and no login attempt) and leaves
the client unchanged; with a session whose probe fails it returns the result of
a `reconnect`, which first logs that session out and drops it and then proceeds
as for a client without session. -/
theorem C20_ensureConnection_cases (net : Imap) (c : MailClient) :
    (c.client = none → ensureConnection net c = reconnect net c) ∧
    (∀ s, c.client = some s → net.noop s = none →
      ensureConnection net c = ⟨c, [NetEvent.noop s], none, false⟩ ∧
      dialAttempts (ensureConnection net c).events = [] ∧
      loginAttempts (ensureConnection net c).events = [] ∧
      (ensureConnection net c).client = c) ∧
    (∀ s e, c.client = some s → net.noop s = some e →
      ensureConnection net c = (reconnect net c).after [NetEvent.noop s] ∧
      (ensureConnection net c).err = (reconnect net c).err ∧
      (ensureConnection net c).client = (reconnect net c).client ∧
      reconnect net c =
        (reconnect net { c with client := none }).after [NetEvent.logout s]) := by
  refine ⟨?_, ?_, ?_⟩
  · intro h
    simp [ensureConnection, h]
  · intro s h hn
    simp [ensureConnection, h, hn, dialAttempts, loginAttempts]
  · intro s e h hn
    refine ⟨by simp [ensureConnection, h, hn], by simp [ensureConnection, h, hn, ConnResult.after],
      by simp [ensureConnection, h, hn, ConnResult.after], ?_⟩
    unfold reconnect ConnResult.after
    simp only [h, maxRetryCount, retryInterval]
    split
    · simp
    · split
      · simp
      · split
        · split
          · simp
          · simp
        · simp

/-- C13 (as amended). Of the store operations of `ProcessEmail` only the
outcome append has its error returned: a call that finds an outcome returns no
error, every other call returns exactly the result of its one append. A store
error in the duplicate lookup is treated like "not found" (the message is
processed and one outcome handed to the store), and a store error in the
target lookup is treated like a missing target (the outcome handed to the store
is "failed" with the target-not-found detail). -/
theorem C13_only_append_errors_returned (env : Env) (st : Store) (email : Email)
    (accountID : Nat) :
    (∀ l, firstLog env st email.MessageID accountID = Except.ok l →
      (ProcessEmail env st email accountID).err = none) ∧
    (∀ e, firstLog env st email.MessageID accountID = Except.error e →
      (ProcessEmail env st email accountID).err = env.createErr) ∧
    (∀ e, env.findLogErr = some e →
      (∃ out : MailLog, appended (ProcessEmail env st email accountID).events = [out]) ∧
      (ProcessEmail env st email accountID).err = env.createErr) ∧
    (∀ e e2 k n, firstLog env st email.MessageID accountID = Except.error e →
      parseSubject email.Subject = (k, n, none) → env.findTargetErr = some e2 →
      appended (ProcessEmail env st email accountID).events
        = [failedLog email accountID ("未找到匹配的转发目标: ".toList ++ n)] ∧
      deliveries (ProcessEmail env st email accountID).events = [] ∧
      (ProcessEmail env st email accountID).err = env.createErr) := by
  refine ⟨?_, ?_, ?_, ?_⟩
  · intro l h
    rw [ProcessEmail_of_existing env st email accountID l h]
  · intro e h
    exact (ProcessEmail_fresh_summary env st email accountID e h).2
  · intro e h
    exact ProcessEmail_fresh_summary env st email accountID e
      (firstLog_error_of_fault env st _ _ e h)
  · intro e e2 k n h hp ht
    rw [ProcessEmail_target_missing env st email accountID e k n e2 h hp
      (firstTarget_error_of_fault env st n e2 ht)]
    refine ⟨?_, ?_, ?_⟩
    · simp [Result.after, logFailedEmail, createLog_events, appended, msgTargetNotFound]
    · simp [Result.after, logFailedEmail, createLog_events, deliveries]
    · simp [Result.after, logFailedEmail, createLog_err]

/-- Counterexample to C13 as stated: the duplicate lookup fails with the store
error "invalid connection" although an outcome for the message exists, and the
target lookup of a second call fails with the same error; both calls return no
error, the first delivers the message again and records a second outcome, the
second records "target not found". -/
theorem C13_counterexample_lookup_errors_swallowed :
    lostEnv.findLogErr = some "invalid connection".toList ∧
    (ProcessEmail lostEnv ⟨[sampleLog], [sampleTarget]⟩ sampleEmail 1).err = none ∧
    deliveries (ProcessEmail lostEnv ⟨[sampleLog], [sampleTarget]⟩ sampleEmail 1).events
      = [(sampleEmail, "zhangsan@example.com".toList, 1)] ∧
    (ProcessEmail lostEnv ⟨[sampleLog], [sampleTarget]⟩ sampleEmail 1).store.logs.length = 2 ∧
    lostTargetEnv.findTargetErr = some "invalid connection".toList ∧
    (ProcessEmail lostTargetEnv ⟨[], [sampleTarget]⟩ sampleEmail 1).err = none ∧
    appended (ProcessEmail lostTargetEnv ⟨[], [sampleTarget]⟩ sampleEmail 1).events
      = [failedLog sampleEmail 1 ("未找到匹配的转发目标: ".toList ++ "张三".toList)] := by
  decide

/-- C14. For every message and destination, when `range` visits every entry
of the `headers` map once, the content `SendEmail` hands to every delivery
attempt (and it makes at least one) is the bytes of: one line "Key: Value\r\n"
for each of the keys From (account username), To (destination), Subject
(message subject), Resent-From (account username), Resent-To (destination),
X-Forwarded-By ("Mail-Dispatcher-System") and, if and only if the sender is
non-empty, Original-From (message sender), in some order; then the empty line
"\r\n"; then the message body, or the placeholder "邮件内容" when the body is
empty. -/
theorem C14_outbound_content (net : Smtp) (order : List (Str × Str) → List (Str × Str))
    (c : MailClient) (email : Email) (toEmail : Str)
    (horder : (order (sendHeaders c email toEmail)).Perm (sendHeaders c email toEmail)) :
    ∃ hs : List (Str × Str),
      hs.Perm ([("From".toList, c.config.Username), ("To".toList, toEmail),
        ("Subject".toList, email.Subject), ("Resent-From".toList, c.config.Username),
        ("Resent-To".toList, toEmail),
        ("X-Forwarded-By".toList, "Mail-Dispatcher-System".toList)] ++
        (if email.From = [] then [] else [("Original-From".toList, email.From)])) ∧
      (SendEmail net order c email toEmail).1 ≠ [] ∧
      ∀ a ∈ (SendEmail net order c email toEmail).1,
        a.toEmail = toEmail ∧
        a.body = toBytes (hs.flatMap (fun kv => kv.1 ++ ": ".toList ++ kv.2 ++ "\r\n".toList)
          ++ "\r\n".toList ++ (if email.Body = [] then "邮件内容".toList else email.Body)) := by
  refine ⟨order (sendHeaders c email toEmail), ?_, ?_, ?_⟩
  · refine horder.trans ?_
    unfold sendHeaders
    by_cases hf : email.From = [] <;> simp [hf]
  · rw [SendEmail_attempts]
    exact (sendMailWithFallback_attempts net _ _ _ _).1
  · intro a ha
    rw [SendEmail_attempts] at ha
    have h := (sendMailWithFallback_attempts net _ _ _ _).2 a ha
    exact ⟨h.2.1, h.2.2⟩

/-- Witness of C14: `sampleEmail` sent on a network where every attempt fails,
the map being visited in insertion order. -/
theorem C14_outbound_content_witness :
    ∃ hs : List (Str × Str),
      hs.Perm ([("From".toList, sampleClient.config.Username),
        ("To".toList, "zhangsan@example.com".toList),
        ("Subject".toList, sampleEmail.Subject),
        ("Resent-From".toList, sampleClient.config.Username),
        ("Resent-To".toList, "zhangsan@example.com".toList),
        ("X-Forwarded-By".toList, "Mail-Dispatcher-System".toList)] ++
        (if sampleEmail.From = [] then [] else [("Original-From".toList, sampleEmail.From)])) ∧
      (SendEmail downSmtp id sampleClient sampleEmail "zhangsan@example.com".toList).1 ≠ [] ∧
      ∀ a ∈ (SendEmail downSmtp id sampleClient sampleEmail "zhangsan@example.com".toList).1,
        a.toEmail = "zhangsan@example.com".toList ∧
        a.body = toBytes (hs.flatMap (fun kv => kv.1 ++ ": ".toList ++ kv.2 ++ "\r\n".toList)
          ++ "\r\n".toList ++
          (if sampleEmail.Body = [] then "邮件内容".toList else sampleEmail.Body)) :=
  C14_outbound_content downSmtp id sampleClient sampleEmail "zhangsan@example.com".toList
    (List.Perm.refl _)

/-- C15. For every byte sequence `rawData` and destination `t`,
`addForwardHeaders` returns the bytes of "Resent-From: <username>\r\nResent-To:
<t>\r\nX-Forwarded-By: Mail-Dispatcher-System\r\n\r\n" followed by `rawData`:
`rawData` is a suffix of the result, what follows the prefix is `rawData`
unmodified, and the length of the result is the length of the prefix plus the
length of `rawData`. `SendRawEmail` hands exactly this content to every
delivery attempt. -/
theorem C15_raw_payload_untouched (net : Smtp) (c : MailClient) (rawData : Bytes) (t : Str) :
    addForwardHeaders c rawData t =
      toBytes ("Resent-From: ".toList ++ c.config.Username ++ "\r\nResent-To: ".toList ++ t ++
        "\r\nX-Forwarded-By: Mail-Dispatcher-System\r\n\r\n".toList) ++ rawData ∧
    rawData <:+ addForwardHeaders c rawData t ∧
    (addForwardHeaders c rawData t).drop
      (toBytes ("Resent-From: ".toList ++ c.config.Username ++ "\r\nResent-To: ".toList ++ t ++
        "\r\nX-Forwarded-By: Mail-Dispatcher-System\r\n\r\n".toList)).length = rawData ∧
    (addForwardHeaders c rawData t).length =
      (toBytes ("Resent-From: ".toList ++ c.config.Username ++ "\r\nResent-To: ".toList ++ t ++
        "\r\nX-Forwarded-By: Mail-Dispatcher-System\r\n\r\n".toList)).length + rawData.length ∧
    (∀ a ∈ (SendRawEmail net c rawData t).1, a.body = addForwardHeaders c rawData t) := by
  have h : addForwardHeaders c rawData t =
      toBytes ("Resent-From: ".toList ++ c.config.Username ++ "\r\nResent-To: ".toList ++ t ++
        "\r\nX-Forwarded-By: Mail-Dispatcher-System\r\n\r\n".toList) ++ rawData := by
    unfold addForwardHeaders
    simp only [foldl_toBytes (fun header : Str => header ++ "\r\n".toList), List.nil_append]
    congr 2
    simp
  refine ⟨h, ?_, ?_, ?_, ?_⟩
  · rw [h]
    exact List.suffix_append _ _
  · rw [h]
    exact List.drop_left _ _
  · rw [h, List.length_append]
  · intro a ha
    rw [SendRawEmail_attempts] at ha
    exact ((sendMailWithFallback_attempts net _ _ _ _).2 a ha).2.2

/-- C16. For every account id `a` and server-assigned UID `u`, the message
built by `parseMessage` has the message identifier made of the decimal
representation of `a`, the character "-", and the decimal representation of
`u`; `parseMessage` returns no error. -/
theorem C16_message_identifier_format (net : Imap) (c : MailClient) (msg : Message) :
    (parseMessage net c msg).1.MessageID =
      (Nat.repr c.config.AccountID).toList ++ "-".toList ++ (Nat.repr msg.Uid).toList ∧
    (parseMessage net c msg).2 = none := by
  constructor <;> rfl

/-- C17. When `ensureConnection` returns no error and leaves the session `s`,
the selection of the inbox succeeds and the search for unread messages of the
last seven days returns no match, `FetchNewEmails` returns an empty sequence
and no error, without issuing a fetch request: its operations are those of
`ensureConnection`, the selection and the search. -/
theorem C17_empty_fetch (net : Imap) (c : MailClient) (s : Session)
    (hconn : (ensureConnection net c).err = none)
    (hpanic : (ensureConnection net c).panicked = false)
    (hsess : (ensureConnection net c).client.client = some s)
    (hsel : net.select s "INBOX".toList = none)
    (hsearch : net.search s (unreadCriteria net) = Except.ok []) :
    (FetchNewEmails net c).emails = [] ∧
    (FetchNewEmails net c).err = none ∧
    (FetchNewEmails net c).panicked = false ∧
    fetchRequests (FetchNewEmails net c).events = [] ∧
    (FetchNewEmails net c).events = (ensureConnection net c).events ++
      [NetEvent.select s "INBOX".toList, NetEvent.search s (unreadCriteria net)] := by
  have h : FetchNewEmails net c =
      ⟨(ensureConnection net c).client, (ensureConnection net c).events ++
        [NetEvent.select s "INBOX".toList, NetEvent.search s (unreadCriteria net)],
        [], none, false⟩ := by
    unfold FetchNewEmails
    simp only [hpanic, hconn, hsess, hsel, hsearch]
    simp
  rw [h]
  refine ⟨rfl, rfl, rfl, ?_, rfl⟩
  simp [fetchRequests_append, fetchRequests, ensureConnection_no_fetch]

/-- Witness of C17: a live session on a server whose search returns no match. -/
theorem C17_empty_fetch_witness :
    (FetchNewEmails okImap liveClient).emails = [] ∧
    (FetchNewEmails okImap liveClient).err = none ∧
    (FetchNewEmails okImap liveClient).panicked = false ∧
    fetchRequests (FetchNewEmails okImap liveClient).events = [] ∧
    (FetchNewEmails okImap liveClient).events = (ensureConnection okImap liveClient).events ++
      [NetEvent.select 7 "INBOX".toList, NetEvent.search 7 (unreadCriteria okImap)] :=
  C17_empty_fetch okImap liveClient 7 (by decide) (by decide) (by decide) rfl rfl

/-- C18, evaluated at a retry count of 0 and a pass over two enabled accounts,
for each of which one task is launched: the transport of account 2 is created
and the no-op probe of its session then fails; account 1 has one unread
message. `reconnect` leaves account 2 without session and returns no error,
`FetchNewEmails` selects the inbox on the absent session, and the task ends in
a run-time panic, which ends the process. When this happens before the task of
account 1 has appended its outcome, the pass records no outcome for account 1,
while the pass without account 2 records the forwarded outcome under the same
interleaving of the steps of account 1. -/
theorem C18_panic_ends_sibling_tasks :
    (pollAllAccounts zeroScheduler).length = 2 ∧
    (createMailClient zeroScheduler.config (zeroScheduler.net account2) account2).err = none ∧
    (FetchNewEmails (zeroScheduler.net account2)
      (createMailClient zeroScheduler.config (zeroScheduler.net account2)
        account2).client).panicked = true ∧
    (pollAccount zeroScheduler.config (zeroScheduler.net account2) account2).trace =
      [PollEvent.net (NetEvent.dialTLS "imap.example.org:993".toList),
       PollEvent.net (NetEvent.login 7 "inbox@example.com".toList "password".toList),
       PollEvent.net (NetEvent.noop 7),
       PollEvent.net (NetEvent.logout 7),
       PollEvent.stop] ∧
    (pollAccount zeroScheduler.config (zeroScheduler.net account2) account2).panicked = true ∧
    (runPool (pollAllAccounts zeroScheduler) [0, 1, 1, 1, 1] ⟨[], [sampleTarget]⟩).logs = [] ∧
    (runPool (pollAllAccounts zeroScheduler) [1, 1, 0, 1, 1] ⟨[], [sampleTarget]⟩).logs = [] ∧
    (runPool (pollAllAccounts { zeroScheduler with accounts := [account1] })
      (dropIndex 0 [0, 1, 1, 1, 1]) ⟨[], [sampleTarget]⟩).logs =
      [forwardedLog 100 { sampleEmail with ReceivedAt := 100 } 1
        "zhangsan@example.com".toList] := by
  decide

/-- C19, evaluated at the execution in which the ticker fires, then `Stop`
closes the stop channel, then the `select` of the loop, with both channels
ready, takes the tick: a poll pass begins after `Stop`; the loop returns at
the later `select` that takes the stop case. -/
theorem C19_pass_begins_after_stop :
    runLoop loopStart [LoopAction.tick, LoopAction.stop, LoopAction.selectTick]
      = some { stopClosed := true, tickPending := false, running := true, passes := [true] } ∧
    runLoop loopStart
        [LoopAction.tick, LoopAction.stop, LoopAction.selectTick, LoopAction.selectStop]
      = some { stopClosed := true, tickPending := false, running := false, passes := [true] } := by
  decide

/-- C21. Every outcome `ProcessEmail` hands to the store for the message `m`
and the account `a` has status "forwarded" or "failed"; its account id is `a`
and its message id, subject, sender, original recipient and received time are
those of `m`; a "forwarded" outcome has a forwarded time and an empty error
detail; a "failed" outcome has a non-empty error detail, no forwarded time and
no destination. -/
theorem C21_outcome_well_formed (env : Env) (st : Store) (m : Email) (a : Nat) (out : MailLog)
    (hout : out ∈ appended (ProcessEmail env st m a).events) :
    (out.Status = "forwarded".toList ∨ out.Status = "failed".toList) ∧
    out.AccountID = a ∧ out.MessageID = m.MessageID ∧ out.Subject = m.Subject ∧
    out.From = m.From ∧ out.To = m.To ∧ out.ReceivedAt = m.ReceivedAt ∧
    (out.Status = "forwarded".toList → out.ForwardedAt ≠ none ∧ out.Error = []) ∧
    (out.Status = "failed".toList →
      out.Error ≠ [] ∧ out.ForwardedAt = none ∧ out.ForwardTo = []) := by
  rcases ProcessEmail_appended env st m a with h | ⟨detail, hd, h⟩ | ⟨forwardTo, h⟩
  · rw [h] at hout
    cases hout
  · rw [h, List.mem_singleton] at hout
    subst hout
    refine ⟨Or.inr rfl, rfl, rfl, rfl, rfl, rfl, rfl, ?_, ?_⟩
    · intro hs
      exact absurd (show "failed".toList = "forwarded".toList from hs) (by decide)
    · intro _
      exact ⟨hd, rfl, rfl⟩
  · rw [h, List.mem_singleton] at hout
    subst hout
    refine ⟨Or.inl rfl, rfl, rfl, rfl, rfl, rfl, rfl, ?_, ?_⟩
    · intro _
      exact ⟨by simp [forwardedLog], rfl⟩
    · intro hs
      exact absurd (show "forwarded".toList = "failed".toList from hs) (by decide)

/-- Witness of C21: the forwarded outcome of `sampleEmail`. -/
theorem C21_outcome_well_formed_witness :
    ((forwardedLog 100 sampleEmail 1 "zhangsan@example.com".toList).Status
        = "forwarded".toList ∨
      (forwardedLog 100 sampleEmail 1 "zhangsan@example.com".toList).Status
        = "failed".toList) ∧
    (forwardedLog 100 sampleEmail 1 "zhangsan@example.com".toList).AccountID = 1 ∧
    (forwardedLog 100 sampleEmail 1 "zhangsan@example.com".toList).MessageID
      = sampleEmail.MessageID ∧
    (forwardedLog 100 sampleEmail 1 "zhangsan@example.com".toList).ForwardedAt ≠ none ∧
    (forwardedLog 100 sampleEmail 1 "zhangsan@example.com".toList).Error = [] :=
  have h := C21_outcome_well_formed okEnv ⟨[], [sampleTarget]⟩ sampleEmail 1
    (forwardedLog 100 sampleEmail 1 "zhangsan@example.com".toList) (by decide)
  ⟨h.1, h.2.1, h.2.2.1, h.2.2.2.2.2.2.2.1 rfl⟩

/-- C22. The effects of `pollAccount`, whatever the store holds and whatever
the `ProcessEmail` calls return. If the transport is created and the fetch
returns the messages m1..mn, the task calls `ProcessEmail` on m1, ..., mn, once
each and in this order, and after the last call it calls `Stop` on the
transport, exactly once. If the fetch fails, it makes no `ProcessEmail` call
and calls `Stop` exactly once. If the creation of the transport fails, it makes
no `ProcessEmail` call and no `Stop` call. -/
theorem C22_poll_task_trace (appConfig : Option AppConfig) (net : Imap) (env : Nat → Env)
    (account : MailAccount) (st : Store) :
    ((createMailClient appConfig net account).err = none →
      (FetchNewEmails net (createMailClient appConfig net account).client).panicked = false →
      (FetchNewEmails net (createMailClient appConfig net account).client).err = none →
      (pollAccountRun appConfig net env account st).trace =
        (createMailClient appConfig net account).events.map PollEvent.net ++
        (FetchNewEmails net (createMailClient appConfig net account).client).events.map
          PollEvent.net ++
        (FetchNewEmails net (createMailClient appConfig net account).client).emails.map
          (fun m => PollEvent.processEmail m account.ID) ++
        PollEvent.stop ::
          (Stop net (FetchNewEmails net
            (createMailClient appConfig net account).client).client).events.map PollEvent.net ∧
      processCalls (pollAccountRun appConfig net env account st).trace =
        (FetchNewEmails net (createMailClient appConfig net account).client).emails.map
          (fun m => (m, account.ID)) ∧
      stopCalls (pollAccountRun appConfig net env account st).trace = 1 ∧
      (pollAccountRun appConfig net env account st).errs.length =
        (FetchNewEmails net (createMailClient appConfig net account).client).emails.length ∧
      (pollAccountRun appConfig net env account st).panicked = false) ∧
    ((createMailClient appConfig net account).err = none →
      (FetchNewEmails net (createMailClient appConfig net account).client).panicked = false →
      (FetchNewEmails net (createMailClient appConfig net account).client).err ≠ none →
      processCalls (pollAccountRun appConfig net env account st).trace = [] ∧
      stopCalls (pollAccountRun appConfig net env account st).trace = 1 ∧
      (pollAccountRun appConfig net env account st).store = st) ∧
    ((createMailClient appConfig net account).err ≠ none →
      processCalls (pollAccountRun appConfig net env account st).trace = [] ∧
      stopCalls (pollAccountRun appConfig net env account st).trace = 0 ∧
      (pollAccountRun appConfig net env account st).store = st) := by
  have hstop := Stop_after_fetch appConfig net account
  refine ⟨?_, ?_, ?_⟩
  · intro hc hp hf
    have htrace : (pollAccountRun appConfig net env account st).trace =
        (createMailClient appConfig net account).events.map PollEvent.net ++
        (FetchNewEmails net (createMailClient appConfig net account).client).events.map
          PollEvent.net ++
        (FetchNewEmails net (createMailClient appConfig net account).client).emails.map
          (fun m => PollEvent.processEmail m account.ID) ++
        PollEvent.stop ::
          (Stop net (FetchNewEmails net
            (createMailClient appConfig net account).client).client).events.map
              PollEvent.net := by
      unfold pollAccountRun
      simp only [hc, hp, hf, Bool.false_eq_true, if_false,
        (processLoop_trace env account.ID _ 0 st).1]
    refine ⟨htrace, ?_, ?_, ?_, ?_⟩
    · rw [htrace]
      simp [processCalls_append, processCalls_net, processCalls_calls, processCalls]
    · rw [htrace]
      simp [stopCalls_append, stopCalls_net, stopCalls_calls, stopCalls]
    · unfold pollAccountRun
      simp only [hc, hp, hf, Bool.false_eq_true, if_false,
        (processLoop_trace env account.ID _ 0 st).2]
    · unfold pollAccountRun
      simp only [hc, hp, hf, Bool.false_eq_true, if_false, hstop]
  · intro hc hp hf
    obtain ⟨e, he⟩ : ∃ e, (FetchNewEmails net
        (createMailClient appConfig net account).client).err = some e := by
      cases h : (FetchNewEmails net (createMailClient appConfig net account).client).err with
      | none => exact absurd h hf
      | some e => exact ⟨e, rfl⟩
    unfold pollAccountRun
    simp only [hc, hp, he, Bool.false_eq_true, if_false]
    simp [processCalls_append, processCalls_net, processCalls, stopCalls_append, stopCalls_net,
      stopCalls]
  · intro hc
    obtain ⟨e, he⟩ : ∃ e, (createMailClient appConfig net account).err = some e := by
      cases h : (createMailClient appConfig net account).err with
      | none => exact absurd h hc
      | some e => exact ⟨e, rfl⟩
    unfold pollAccountRun
    simp only [he]
    simp [processCalls_net, stopCalls_net]

/-- Witness of C22: account 1 with one unread message, on a store that rejects
the outcome append, so that the `ProcessEmail` call returns an error. -/
theorem C22_poll_task_trace_witness :
    (pollAccountRun sampleScheduler.config oneMessageImap (fun _ => fullEnv) account1
      ⟨[], [sampleTarget]⟩).errs = [some "disk full".toList] ∧
    processCalls (pollAccountRun sampleScheduler.config oneMessageImap (fun _ => fullEnv)
      account1 ⟨[], [sampleTarget]⟩).trace =
        (FetchNewEmails oneMessageImap
          (createMailClient sampleScheduler.config oneMessageImap account1).client).emails.map
          (fun m => (m, account1.ID)) ∧
    stopCalls (pollAccountRun sampleScheduler.config oneMessageImap (fun _ => fullEnv)
      account1 ⟨[], [sampleTarget]⟩).trace = 1 :=
  have h := (C22_poll_task_trace sampleScheduler.config oneMessageImap (fun _ => fullEnv)
    account1 ⟨[], [sampleTarget]⟩).1 (by decide) (by decide) (by decide)
  ⟨by decide, h.2.1, h.2.2.1⟩

/-- C23, evaluated at the zero-value application configuration, whose retry
count is 0: `reconnect` makes no connect and no login attempt, returns no
error and leaves the client without session; `ensureConnection` does the
same, and `FetchNewEmails` then selects the inbox on the absent session, which
is a run-time panic. -/
theorem C23_zero_retry_count_leaves_no_session :
    maxRetryCount zeroClient = 0 ∧
    (reconnect okImap zeroClient).events = [] ∧
    (reconnect okImap zeroClient).err = none ∧
    (reconnect okImap zeroClient).client.client = none ∧
    (ensureConnection okImap zeroClient).err = none ∧
    (ensureConnection okImap zeroClient).client.client = none ∧
    (FetchNewEmails okImap zeroClient).panicked = true ∧
    (FetchNewEmails okImap (NewMailClient (some zeroAppConfig))).panicked = true := by
  decide

/-- C24. For every protocol message, the message built by `parseMessage` has
an empty `Body` and no `RawData`, and `parseMessage` returns no error. So every
message `FetchNewEmails` returns has an empty `Body` and no `RawData`, and the
content `SendEmail` hands to its delivery attempts for such a message ends with
the placeholder "邮件内容". -/
theorem C24_fetched_messages_have_no_body (net : Imap) (c : MailClient) :
    (∀ msg : Message,
      (parseMessage net c msg).1.Body = [] ∧ (parseMessage net c msg).1.RawData = [] ∧
      (parseMessage net c msg).2 = none) ∧
    (∀ email ∈ (FetchNewEmails net c).emails,
      email.Body = [] ∧ email.RawData = [] ∧
      ∀ (smtp : Smtp) (order : List (Str × Str) → List (Str × Str)) (c2 : MailClient)
        (toEmail : Str),
        (SendEmail smtp order c2 email toEmail).1 ≠ [] ∧
        ∀ a ∈ (SendEmail smtp order c2 email toEmail).1,
          toBytes "邮件内容".toList <:+ a.body) := by
  refine ⟨fun msg => parseMessage_no_body net c msg, ?_⟩
  intro email hmem
  obtain ⟨c2, msg, he⟩ := FetchNewEmails_mem net c email hmem
  have hb : email.Body = [] := by rw [he]; exact (parseMessage_no_body net c2 msg).1
  have hr : email.RawData = [] := by rw [he]; exact (parseMessage_no_body net c2 msg).2.1
  refine ⟨hb, hr, ?_⟩
  intro smtp order c3 toEmail
  rw [SendEmail_attempts]
  refine ⟨(sendMailWithFallback_attempts smtp _ _ _ _).1, ?_⟩
  intro a ha
  rw [((sendMailWithFallback_attempts smtp _ _ _ _).2 a ha).2.2, if_pos hb, toBytes_append]
  exact List.suffix_append _ _

/-- Witness of C24: the message fetched from a server with one unread message. -/
theorem C24_fetched_messages_have_no_body_witness :
    ({ sampleEmail with ReceivedAt := 100 } : Email).Body = [] ∧
    ({ sampleEmail with ReceivedAt := 100 } : Email).RawData = [] ∧
    ∀ (smtp : Smtp) (order : List (Str × Str) → List (Str × Str)) (c2 : MailClient)
      (toEmail : Str),
      (SendEmail smtp order c2 { sampleEmail with ReceivedAt := 100 } toEmail).1 ≠ [] ∧
      ∀ a ∈ (SendEmail smtp order c2 { sampleEmail with ReceivedAt := 100 } toEmail).1,
        toBytes "邮件内容".toList <:+ a.body :=
  (C24_fetched_messages_have_no_body oneMessageImap liveClient).2
    { sampleEmail with ReceivedAt := 100 } (by decide)

/-- C25. If the identifier `parseMessage` builds for the account id `a1` and
the UID `u1` equals the one it builds for `a2` and `u2`, then `a1 = a2` and
`u1 = u2`: messages that differ in account or in UID have different duplicate
detection keys. -/
theorem C25_message_identifier_injective (net1 net2 : Imap) (c1 c2 : MailClient)
    (msg1 msg2 : Message)
    (h : (parseMessage net1 c1 msg1).1.MessageID = (parseMessage net2 c2 msg2).1.MessageID) :
    c1.config.AccountID = c2.config.AccountID ∧ msg1.Uid = msg2.Uid := by
  have e1 : (parseMessage net1 c1 msg1).1.MessageID =
      formatUint c1.config.AccountID ++ ['-'] ++ formatUint msg1.Uid := rfl
  have e2 : (parseMessage net2 c2 msg2).1.MessageID =
      formatUint c2.config.AccountID ++ ['-'] ++ formatUint msg2.Uid := rfl
  rw [e1, e2, List.append_assoc, List.append_assoc] at h
  have h2 : formatUint c1.config.AccountID ++ '-' :: formatUint msg1.Uid =
      formatUint c2.config.AccountID ++ '-' :: formatUint msg2.Uid := h
  obtain ⟨ha, hu⟩ := append_sep_inj '-' _ _ _ _ (formatUint_spec _).2 (formatUint_spec _).2 h2
  exact ⟨formatUint_injective _ _ ha, formatUint_injective _ _ hu⟩

/-- Witness of C25: two messages of account 1 with UID 7, fetched by different
clients, get the same identifier. -/
theorem C25_message_identifier_injective_witness :
    liveClient.config.AccountID = sampleClient.config.AccountID ∧
      sampleMessage.Uid = bareMessage.Uid :=
  C25_message_identifier_injective okImap oneMessageImap liveClient sampleClient sampleMessage
    bareMessage (by decide)

end MailDispatcher
